import Mathlib

/-!
A verification development for the SpectraMax plate-reader parser
(`growth_curve_calculator`): a shallow embedding, in Lean, of
`utils.py`, `microplate.py` and `spectramax.py`, together with theorems
about the embedded definitions.

Modelling conventions:
* Python machine floats are modelled exactly: a parsed float is a `PyFloat`,
  either a rational number, a signed infinity, or NaN.  Rounding of decimal
  literals to binary doubles and overflow of huge exponents to infinity are
  not modelled; no claim below depends on them.
* `ss:Index` attributes are modelled by their integer values (`Option Int`),
  since the instrument always writes decimal integers there.
* A spreadsheet `Cell` carries its optional sparse index and the flattened
  text of its `ss:Data` child (`none` when the cell has no `Data` child).
  Each `Data` text is assumed to be a single newline-free line, so that
  `row.text.strip().split("\n")` yields exactly the list of `Data` texts.
* In BeautifulSoup a `Tag` is falsy when it has no children, which matters
  for the `xml_row.find("ss:Cell")` truthiness test in the plate-start check.
-/

/-- Python whitespace characters recognised by `str.strip` / `float` / `int`
(ASCII subset; exotic unicode whitespace is not modelled). -/
def isPySpace (c : Char) : Bool :=
  c = ' ' || c = '\t' || c = '\n' || c = '\r' || c = '\x0b' || c = '\x0c'

/-- Strip leading and trailing whitespace from a character list. -/
def pyStrip (cs : List Char) : List Char :=
  ((cs.dropWhile isPySpace).reverse.dropWhile isPySpace).reverse

/-- Consume an optional leading sign; returns (isNegative, rest). -/
def parseSign : List Char → Bool × List Char
  | '+' :: rest => (false, rest)
  | '-' :: rest => (true, rest)
  | l => (false, l)

/-- Numeric value of a list of decimal digit characters. -/
def natDigitsVal (l : List Char) : Nat :=
  l.foldl (fun acc c => acc * 10 + (c.toNat - '0'.toNat)) 0

/-- Case-insensitive comparison of a character list with a (lowercase) pattern. -/
def ciEq (cs : List Char) (pat : String) : Bool :=
  cs.map Char.toLower == pat.toList

/-- Split a character list on a separator character; like Python's
`str.split(sep)`, the empty input yields one empty part. -/
def splitOnCharList (sep : Char) : List Char → List (List Char)
  | [] => [[]]
  | c :: rest =>
    let r := splitOnCharList sep rest
    if c = sep then [] :: r
    else
      match r with
      | h :: t => (c :: h) :: t
      | [] => [[c]]

/-- Python's `s.split(sep)` for a single-character separator. -/
def splitStr (sep : Char) (s : String) : List String :=
  (splitOnCharList sep s.toList).map String.mk

/-- Whether `pat` is a prefix of `l`. -/
def listIsPrefix : List Char → List Char → Bool
  | [], _ => true
  | _ :: _, [] => false
  | a :: as2, b :: bs => a == b && listIsPrefix as2 bs

/-- Whether `pat` occurs as a contiguous substring of `l`
(Python's `pat in s`). -/
def listContainsSub (pat : List Char) : List Char → Bool
  | [] => listIsPrefix pat []
  | b :: bs => listIsPrefix pat (b :: bs) || listContainsSub pat bs

/-- Result of Python's `float(...)` on a string: a finite rational, a signed
infinity (`pos = true` for `+inf`), or NaN. -/
inductive PyFloat
  | finite (q : ℚ)
  | inf (pos : Bool)
  | nan
deriving DecidableEq, Repr

/-- `true` exactly when the float is finite. -/
def PyFloat.isFinite : PyFloat → Bool
  | .finite _ => true
  | _ => false

/-- The optional exponent part of a Python float literal: empty means
exponent 0; otherwise `e`/`E`, an optional sign, and at least one digit,
with nothing after. -/
def parseExp : List Char → Option Int
  | [] => some 0
  | c :: r =>
    if c = 'e' || c = 'E' then
      let (eneg, r2) := parseSign r
      let eds := r2.takeWhile Char.isDigit
      let r3 := r2.dropWhile Char.isDigit
      if eds.isEmpty || !r3.isEmpty then none
      else some (if eneg then -(natDigitsVal eds : Int) else (natDigitsVal eds : Int))
    else none

/-- The digits-and-dot part of a Python float literal, after the sign:
`digits [. digits] [exp]` with at least one digit overall.
(Digit-grouping underscores and non-ASCII decimal digits are not modelled.) -/
def parsePyNumber (neg : Bool) (cs : List Char) : Option PyFloat :=
  let ds1 := cs.takeWhile Char.isDigit
  let rest := cs.dropWhile Char.isDigit
  let (ds2, rest2) :=
    match rest with
    | '.' :: r => (r.takeWhile Char.isDigit, r.dropWhile Char.isDigit)
    | _ => (([] : List Char), rest)
  if ds1.isEmpty && ds2.isEmpty then none
  else
    match parseExp rest2 with
    | none => none
    | some ex =>
      let mant : Nat := natDigitsVal (ds1 ++ ds2)
      let e2 : Int := ex - (ds2.length : Int)
      let q : ℚ :=
        if 0 ≤ e2 then mkRat (mant * 10 ^ e2.toNat) 1
        else mkRat mant (10 ^ (-e2).toNat)
      some (.finite (if neg then -q else q))

instance {ε α : Type} [DecidableEq ε] [DecidableEq α] : DecidableEq (Except ε α) := fun x y =>
  match x, y with
  | .ok a, .ok b =>
    if h : a = b then .isTrue (by rw [h]) else .isFalse (fun hh => h (Except.ok.inj hh))
  | .error a, .error b =>
    if h : a = b then .isTrue (by rw [h]) else .isFalse (fun hh => h (Except.error.inj hh))
  | .ok _, .error _ => .isFalse (fun hh => Except.noConfusion hh)
  | .error _, .ok _ => .isFalse (fun hh => Except.noConfusion hh)

/-- Python's `float(s)` on a string: `some` result, or `none` when it raises
`ValueError`.  Accepts optional surrounding whitespace, an optional sign, and
either `inf`/`infinity`/`nan` (case-insensitive) or a decimal literal. -/
def pyFloatParse (s : String) : Option PyFloat :=
  let cs := pyStrip s.toList
  let (neg, cs2) := parseSign cs
  if ciEq cs2 "inf" || ciEq cs2 "infinity" then some (.inf (!neg))
  else if ciEq cs2 "nan" then some .nan
  else parsePyNumber neg cs2

/-- `float(s)` as an `Except`, modelling the raised `ValueError`. -/
def pyFloatE (s : String) : Except String PyFloat :=
  match pyFloatParse s with
  | some f => .ok f
  | none => .error ("ValueError: could not convert string to float: " ++ s)

/-- `utils.value_to_float`: convert a string to float, returning NaN (the
missing-value sentinel `np.nan`) if the conversion raises `ValueError`. -/
def value_to_float (s : String) : PyFloat :=
  match pyFloatParse s with
  | some f => f
  | none => .nan

/-- Python's `int(s)` on a string: optional surrounding whitespace, optional
sign, at least one decimal digit.  (Digit-grouping underscores and non-ASCII
digits are not modelled.) -/
def pyInt (s : String) : Except String Int :=
  let cs := pyStrip s.toList
  let (neg, cs2) := parseSign cs
  if cs2.isEmpty || !(cs2.all Char.isDigit) then
    .error ("ValueError: invalid literal for int() with base 10: " ++ s)
  else
    .ok (if neg then -(natDigitsVal cs2 : Int) else (natDigitsVal cs2 : Int))

/-- The loop of `utils.forward_fill_indices`, walking `str_indices[1:]` with
the last reconciled index as state. -/
def ffiGo : Int → List (Option Int) → List Int
  | _, [] => []
  | _, some i :: rest => i :: ffiGo i rest
  | prev, none :: rest => (prev + 1) :: ffiGo (prev + 1) rest

/-- `utils.forward_fill_indices`: the first output element is `start`
regardless of the first input; each later element is its explicit index when
present, else one more than the previous output element. -/
def forwardFillIndices (strIndices : List (Option Int)) (start : Int) : List Int :=
  start :: ffiGo start strIndices.tail

/-- `pacedB prev l = true` when every explicit index in `l` is at least the
reconciled value of the element before it (the condition under which the
forward-filled output is non-decreasing). -/
def pacedB : Int → List (Option Int) → Bool
  | _, [] => true
  | prev, none :: rest => pacedB (prev + 1) rest
  | prev, some e :: rest => decide (prev ≤ e) && pacedB e rest

/-- A spreadsheet cell (`ss:Cell`): an optional sparse `ss:Index` attribute
(modelled by its integer value) and the flattened text of its `ss:Data`
child, `none` when the cell has no `Data` child. -/
structure Cell where
  idx : Option Int
  data : Option String
deriving DecidableEq, Repr

/-- A spreadsheet row (`ss:Row`): its ordered cells. -/
structure Row where
  cells : List Cell
deriving DecidableEq, Repr

instance : Inhabited Row := ⟨⟨[]⟩⟩

/-- `xml_row.find("ss:Cell")` is truthy: the row has a first cell and, since
an empty BeautifulSoup tag is falsy, that cell has a `Data` child. -/
def rowFindCellTruthy (r : Row) : Bool :=
  match r.cells.head? with
  | some c => c.data.isSome
  | none => false

/-- `xml_row.find("ss:Data").text`: the text of the first `Data` element in
the row, in document order. -/
def rowFirstDataText (r : Row) : Option String :=
  (r.cells.filterMap Cell.data).head?

/-- The plate-start test of `_get_lists_of_plate_reader_xml` (and
`plate_names`): `xml_row.find("ss:Cell") and xml_row.find("ss:Data") and
xml_row.find("ss:Data").text == "Plate name"`.  An empty first `Data` is
falsy, but its text is also not `"Plate name"`, so only the cell truthiness
test needs separate modelling. -/
def isPlateStart (r : Row) : Bool :=
  rowFindCellTruthy r && (rowFirstDataText r == some "Plate name")

/-- The positions (in document order) of the rows matching the plate-start
test; `find_all` returns these rows in document order.  Rows are identified
by their position in the document's row list. -/
def plateStartIdxs (doc : List Row) : List Nat :=
  (List.range doc.length).filter (fun i => isPlateStart (doc.getD i default))

/-- `current.find_next("ss:Row")` starting from row position `c` in a
document of `len` rows. -/
def findNextRow (len c : Nat) : Option Nat :=
  if c + 1 < len then some (c + 1) else none

/-- The `while current and current != end_row` walk of
`_extract_plate_reader_xml`: starting from `current`, repeatedly step to the
next row, collecting each row that is neither `None` nor the end row;
returns the collected positions and the terminal value of `current`.
`fuel` bounds the walk (callers pass the document length, which suffices
since positions strictly increase). -/
def extractLoop (len e : Nat) : Nat → Option Nat → List Nat × Option Nat
  | _, none => ([], none)
  | 0, some c => ([], some c)
  | fuel + 1, some c =>
    if c = e then ([], some c)
    else
      match findNextRow len c with
      | none => ([], none)
      | some c2 =>
        let (rest, fin) := extractLoop len e fuel (some c2)
        (if c2 = e then rest else c2 :: rest, fin)

/-- `_extract_plate_reader_xml`: collect the start row, every row strictly
between start and end, and — when `read_last_row` and the walk terminated at
the end row — the end row itself.  A `None` start row (a plate-start row
with no preceding row) yields `[None]`, exactly as the Python list does. -/
def extractPlateReaderXml (doc : List Row) (startI : Option Nat) (endI : Nat)
    (readLastRow : Bool) : List (Option Nat) :=
  match startI with
  | none => [none]
  | some s =>
    let (mid, fin) := extractLoop doc.length endI doc.length (some s)
    let collected := some s :: mid.map some
    if readLastRow && (fin == some endI) then collected ++ [some endI] else collected

/-- `_get_lists_of_plate_reader_xml`: for each plate-start row, the section
starts at the row immediately preceding it (`find_previous`, `None` when the
plate-start row is the document's first row); for every plate but the last
the end row is the row preceding the next plate-start row and is not read,
for the last plate the end row is the document's last row and is read. -/
def getListsOfPlateReaderXml (doc : List Row) : List (List (Option Nat)) :=
  let ps := plateStartIdxs doc
  (List.range ps.length).map (fun i =>
    let p := ps.getD i 0
    let header : Option Nat := if p = 0 then none else some (p - 1)
    if i < ps.length - 1 then
      extractPlateReaderXml doc header (ps.getD (i + 1) 0 - 1) false
    else
      extractPlateReaderXml doc header (doc.length - 1) true)

/-- `microplate.PlateType`: 96- or 384-well plates. -/
inductive PlateType
  | plate96
  | plate384
deriving DecidableEq, Repr

/-- `PlateType(well_count)`: construct from the well count, raising
`ValueError` for any other number. -/
def plateTypeOfInt (n : Int) : Except String PlateType :=
  if n = 96 then .ok .plate96
  else if n = 384 then .ok .plate384
  else .error "ValueError: not a valid PlateType"

/-- `microplate.Well`: a validated row letter and column number. -/
structure Well where
  row : String
  column : Int
deriving DecidableEq, Repr

/-- `Well.__post_init__`: row must be a single uppercase letter, and row and
column must be within the declared plate size.  Python's lexicographic
string comparison on a one-character string is the character comparison. -/
def mkWell (row : String) (column : Int) (pt : PlateType) : Except String Well :=
  match row.toList with
  | [c] =>
    if ¬ ('A' ≤ c ∧ c ≤ 'Z') then
      .error "ValueError: Row must be a single uppercase letter (A-Z)."
    else
      match pt with
      | .plate96 =>
        if ¬ ('A' ≤ c ∧ c ≤ 'H') then
          .error "ValueError: For 96-well plates, row must be between A and H."
        else if ¬ (1 ≤ column ∧ column ≤ 12) then
          .error "ValueError: For 96-well plates, column must be between 1 and 12."
        else .ok ⟨row, column⟩
      | .plate384 =>
        if ¬ ('A' ≤ c ∧ c ≤ 'P') then
          .error "ValueError: For 384-well plates, row must be between A and P."
        else if ¬ (1 ≤ column ∧ column ≤ 24) then
          .error "ValueError: For 384-well plates, column must be between 1 and 24."
        else .ok ⟨row, column⟩
  | _ => .error "ValueError: Row must be a single uppercase letter (A-Z)."

/-- `Well.from_string`: first character (uppercased) is the row, the rest is
the column number; raises `ValueError` for short ids, unparseable column
numbers, or invalid row/column combinations. -/
def wellFromString (wellId : String) (pt : PlateType) : Except String Well :=
  match wellId.toList with
  | [] => .error "ValueError: Well ID must be at least 2 characters (e.g., 'A1' or 'A01')."
  | [_] => .error "ValueError: Well ID must be at least 2 characters (e.g., 'A1' or 'A01')."
  | c :: rest => do
    let column ← pyInt (String.mk rest)
    mkWell (String.mk [c.toUpper]) column pt

/-- `str(well)`: the row letter followed by the zero-padded column. -/
def wellStr (w : Well) : String :=
  w.row ++ (if w.column < 10 then "0" ++ toString w.column else toString w.column)

/-- A timestamp parsed by `datetime.strptime` with format
`"%m/%d/%Y %H:%M:%S"`. -/
structure DateTime where
  month : Nat
  day : Nat
  year : Nat
  hour : Nat
  minute : Nat
  second : Nat
deriving DecidableEq, Repr

/-- A nonempty all-digit string parsed as a natural number. -/
def parseNatDigits (s : String) : Option Nat :=
  if s.toList ≠ [] ∧ s.toList.all Char.isDigit then some (natDigitsVal s.toList) else none

/-- `datetime.strptime(s, "%m/%d/%Y %H:%M:%S")`, simplified: the six numeric
fields separated by `/`, `:` and a space, with the field-range checks
strptime performs (calendar day-of-month validity beyond 1–31 is not
modelled; no claim depends on timestamp contents). -/
def strptime (s : String) : Except String DateTime :=
  match splitStr ' ' s with
  | [d, t] =>
    match splitStr '/' d, splitStr ':' t with
    | [ms, ds, ys], [hs, mins, secs] =>
      match parseNatDigits ms, parseNatDigits ds, parseNatDigits ys,
            parseNatDigits hs, parseNatDigits mins, parseNatDigits secs with
      | some m, some dy, some y, some h, some mi, some sec =>
        if 1 ≤ m ∧ m ≤ 12 ∧ 1 ≤ dy ∧ dy ≤ 31 ∧ h ≤ 23 ∧ mi ≤ 59 ∧ sec ≤ 61 then
          .ok ⟨m, dy, y, h, mi, sec⟩
        else .error "ValueError: time data does not match format"
      | _, _, _, _, _, _ => .error "ValueError: time data does not match format"
    | _, _ => .error "ValueError: time data does not match format"
  | _ => .error "ValueError: time data does not match format"

/-- Insert into a Python dict modelled as an association list: first
insertion order is kept, a repeated key overwrites its value in place. -/
def dictInsert {κ β : Type} [BEq κ] (m : List (κ × β)) (k : κ) (v : β) : List (κ × β) :=
  if m.any (fun p => p.1 == k) then m.map (fun p => if p.1 == k then (k, v) else p)
  else m ++ [(k, v)]

/-- `re.sub("\n", "", cell.text)`: a cell's text (its `Data` child's text,
`""` for a childless cell) with newlines removed. -/
def cellText (c : Cell) : String :=
  String.mk ((c.data.getD "").toList.filter (fun ch => ch ≠ '\n'))

/-- `[re.sub("\n", "", cell.text) for cell in xml_row.find_all("Cell")]`. -/
def rowStrData (r : Row) : List String :=
  r.cells.map cellText

/-- `xml_row.text.strip().split("\n")`: under the modelling convention that
each `Data` text is one newline-free line, this is the list of `Data` texts,
or `[""]` for a row with no `Data` (splitting the empty string yields one
empty part). -/
def rowTextLines (r : Row) : List String :=
  let ls := r.cells.filterMap Cell.data
  if ls.isEmpty then [""] else ls

/-- `"well data" in xml_row.text.lower()`: the marker contains no newline,
so it occurs in the joined text exactly when it occurs in one line. -/
def rowHasWellDataMarker (r : Row) : Bool :=
  (rowTextLines r).any (fun l =>
    listContainsSub ("well data".toList) (l.toList.map Char.toLower))

/-- The metadata/measurement split loop of `_parse_plate_reader_xml`:
before the "well data" row every (non-`None`) row contributes a metadata
entry (first line as key, remaining lines joined without separator as
value); the "well data" row itself is still recorded as metadata; every row
after it is a measurement row. -/
def collectMetaAndMeasurements (plateXml : List (Option Row)) :
    List (String × String) × List Row :=
  let step := fun (st : Bool × List (String × String) × List Row) (orow : Option Row) =>
    match orow with
    | none => st
    | some r =>
      let (started, md, meas) := st
      if started then (started, md, meas ++ [r])
      else
        let started2 := started || rowHasWellDataMarker r
        let ls := rowTextLines r
        (started2, dictInsert md (ls.headD "") (String.join ls.tail), meas)
  let (_, md, meas) := plateXml.foldl step (false, [], [])
  (md, meas)

/-- One entry of a pandas DataFrame cell: `na` is `NaN` (pandas' missing
marker), other entries are strings, finite rationals, or infinities. -/
inductive Datum
  | na
  | str (s : String)
  | num (q : ℚ)
  | inf (pos : Bool)
deriving DecidableEq, Repr

/-- A `PyFloat` stored in a DataFrame: NaN becomes the missing marker. -/
def datumOfFloat : PyFloat → Datum
  | .nan => .na
  | .finite q => .num q
  | .inf b => .inf b

/-- A pandas DataFrame in long format: named columns and aligned rows. -/
structure Table where
  cols : List String
  rows : List (List Datum)
deriving DecidableEq, Repr

/-- Rows are aligned with the column list. -/
def Table.WF (t : Table) : Prop :=
  ∀ r ∈ t.rows, r.length = t.cols.length

instance (t : Table) : Decidable t.WF := by
  unfold Table.WF; infer_instance

/-- A row's entry under a column name: the pair list of names and entries,
looked up by name (pandas label-based selection). -/
def rowAtCol (cols : List String) (r : List Datum) (c : String) : Option Datum :=
  (cols.zip r).lookup c

/-- `df.dropna(axis=0, how="any", subset="value")`: keep the rows whose
`value` entry is not missing; pandas raises `KeyError` when the subset
column does not exist. -/
def dropnaValueRows (t : Table) : Except String Table :=
  if "value" ∈ t.cols then
    .ok ⟨t.cols, t.rows.filter (fun r => (rowAtCol t.cols r "value").getD Datum.na != Datum.na)⟩
  else .error "KeyError: value"

/-- Keep the elements of a list selected by a Boolean mask. -/
def maskFilter {α : Type} : List Bool → List α → List α
  | b :: bs, a :: rest => if b then a :: maskFilter bs rest else maskFilter bs rest
  | _, _ => []

/-- For each column position, whether some row has a non-missing entry there
(`how="all"` drops a column exactly when its non-NA count is zero, which on
a frame with no rows drops every column). -/
def keepMask (t : Table) : List Bool :=
  (List.range t.cols.length).map (fun j => t.rows.any (fun r => r.getD j Datum.na != Datum.na))

/-- `df.dropna(axis=1, how="all")`: drop the columns whose entries are all
missing. -/
def dropnaAllNaCols (t : Table) : Table :=
  ⟨maskFilter (keepMask t) t.cols, t.rows.map (maskFilter (keepMask t))⟩

/-- The post-processing chain of `_parse_plate_reader_xml` (line 262):
`dataframe.dropna(axis=0, how="any", subset="value").dropna(axis=1, how="all")`. -/
def postProcess (t : Table) : Except String Table :=
  (dropnaValueRows t).map dropnaAllNaCols

/-- The `ss:Index` attributes of a row's cells. -/
def rowStrIndices (r : Row) : List (Option Int) :=
  r.cells.map Cell.idx

/-- The shared per-row alignment step of all three parsers: texts, indices,
and `forward_fill_indices(row_str_indices, start=int(row_str_indices[0]) if
row_str_indices[0] is not None else 0)`.  A row with no cells raises
`IndexError` at `row_str_indices[0]`. -/
def alignRow (r : Row) : Except String (List Int × List String) :=
  match rowStrIndices r with
  | [] => .error "IndexError: list index out of range"
  | i0 :: rest0 => .ok (forwardFillIndices (i0 :: rest0) (i0.getD 0), rowStrData r)

/-- A record of the endpoint and spectrum-scan tables. -/
structure ExEmRec where
  well_row : String
  well_column : Int
  well_id : String
  value : PyFloat
  excitation_nm : PyFloat
  emission_nm : PyFloat
deriving DecidableEq, Repr

/-- A record of the kinetic table. -/
structure KineticRec where
  well_row : String
  well_column : Int
  well_id : String
  value : PyFloat
  time_s : PyFloat
deriving DecidableEq, Repr

/-- `re.search(r"(\d+)", s)`: the first maximal run of decimal digits. -/
def firstDigitRunAux : List Char → Option (List Char)
  | [] => none
  | c :: rest =>
    if c.isDigit then some ((c :: rest).takeWhile Char.isDigit) else firstDigitRunAux rest

/-- The numeric value of the first digit run of `s`, if any. -/
def firstDigitRun (s : String) : Option Nat :=
  (firstDigitRunAux s.toList).map natDigitsVal

/-- One loop iteration of `_parse_endpoint_measurements`.  The Python locals
`index_to_well_column` and `wavelengths_nm` persist across iterations and
are unbound (`NameError`) if a data row's loop body runs before a header row
was seen. -/
def endpointStep (pt : PlateType)
    (st : Option (List (Int × Int) × List PyFloat) × List ExEmRec) (r : Row) :
    Except String (Option (List (Int × Int) × List PyFloat) × List ExEmRec) := do
  let (idxs, dat) ← alignRow r
  if dat.contains "Wavelength(Ex/Em)" then do
    let m := (idxs.zip dat).foldl (fun m p =>
      match pyInt p.2 with
      | .ok n => dictInsert m (p.1 + 1) n
      | .error _ => m) []
    let second ← match dat with
      | _ :: s :: _ => Except.ok s
      | _ => .error "IndexError: list index out of range"
    let wl := (splitStr '/' second).map (fun part =>
      match firstDigitRun part with
      | some n => PyFloat.finite (mkRat n 1)
      | none => PyFloat.nan)
    .ok (some (m, wl), st.2)
  else
    match st.1 with
    | none =>
      if (idxs.tail.zip dat.tail).isEmpty then .ok st
      else .error "NameError: name index_to_well_column is not defined"
    | some (m, wl) => do
      let wellRow := dat.headD ""
      let recs2 ← (idxs.tail.zip dat.tail).foldlM (fun acc p =>
        match m.lookup p.1 with
        | none => Except.ok acc
        | some wc => do
          let w ← mkWell wellRow wc pt
          let em ← match wl with
            | _ :: e :: _ => Except.ok e
            | _ => .error "IndexError: list index out of range"
          Except.ok (acc ++ [{ well_row := w.row, well_column := w.column,
                               well_id := wellStr w, value := value_to_float p.2,
                               excitation_nm := wl.headD PyFloat.nan, emission_nm := em }]))
        ([] : List ExEmRec)
      .ok (st.1, st.2 ++ recs2)

/-- The record list built by `_parse_endpoint_measurements`. -/
def endpointRecords (rows : List Row) (pt : PlateType) : Except String (List ExEmRec) := do
  let (_, recs) ← rows.foldlM (endpointStep pt) (none, [])
  .ok recs

/-- The column order of the endpoint/spectrum-scan DataFrame, which follows
the key insertion order of the per-record dict (for a spectrum scan the
swept axis column precedes the constant one). -/
def spectrumTableCols (isEx : Bool) : List String :=
  ["well_row", "well_column", "well_id", "value"] ++
    (if isEx then ["excitation_nm", "emission_nm"] else ["emission_nm", "excitation_nm"])

/-- One DataFrame row of an `ExEmRec`, in the declared column order. -/
def exemRecToRow (isEx : Bool) (rec : ExEmRec) : List Datum :=
  [.str rec.well_row, .num (mkRat rec.well_column 1), .str rec.well_id,
   datumOfFloat rec.value] ++
    (if isEx then [datumOfFloat rec.excitation_nm, datumOfFloat rec.emission_nm]
     else [datumOfFloat rec.emission_nm, datumOfFloat rec.excitation_nm])

/-- `pd.DataFrame.from_records`: an empty record list yields a frame with no
columns at all. -/
def exemRecsToTable (isEx : Bool) (recs : List ExEmRec) : Table :=
  if recs.isEmpty then ⟨[], []⟩
  else ⟨spectrumTableCols isEx, recs.map (exemRecToRow isEx)⟩

/-- `_parse_endpoint_measurements`, as a DataFrame (endpoint records list
excitation before emission, the `isEx = true` column order). -/
def parseEndpointMeasurements (rows : List Row) (pt : PlateType) : Except String Table :=
  (endpointRecords rows pt).map (exemRecsToTable true)

/-- `metadata.get("Excitation sweep") == "True"`. -/
def isExSweepOf (md : List (String × String)) : Bool :=
  md.lookup "Excitation sweep" == some "True"

/-- The constant wavelength of `_parse_spectrum_scan_measurements`:
`float(metadata.get("Emission start"))` for an excitation sweep, else
`float(metadata.get("Excitation start"))`; `float(None)` raises `TypeError`. -/
def spectrumConst (md : List (String × String)) : Except String PyFloat :=
  match (if isExSweepOf md then md.lookup "Emission start" else md.lookup "Excitation start") with
  | none => .error "TypeError: float() argument must be a string or a real number, not NoneType"
  | some s => pyFloatE s

/-- One loop iteration of `_parse_spectrum_scan_measurements`. -/
def spectrumStep (pt : PlateType) (isEx : Bool) (constF : PyFloat)
    (st : Option (List (Int × Well)) × List ExEmRec) (r : Row) :
    Except String (Option (List (Int × Well)) × List ExEmRec) := do
  let (idxs, dat) ← alignRow r
  if dat.contains "Wavelength/Well" then
    let m := (idxs.zip dat).foldl (fun m p =>
      match wellFromString p.2 pt with
      | .ok w => dictInsert m p.1 w
      | .error _ => m) []
    .ok (some m, st.2)
  else do
    let varWl ← pyFloatE (dat.headD "")
    match st.1 with
    | none => .error "NameError: name index_to_well is not defined"
    | some m =>
      let recs2 := (idxs.zip dat).filterMap (fun p =>
        (m.lookup p.1).map (fun w =>
          { well_row := w.row, well_column := w.column, well_id := wellStr w,
            value := value_to_float p.2,
            excitation_nm := if isEx then varWl else constF,
            emission_nm := if isEx then constF else varWl }))
      .ok (st.1, st.2 ++ recs2)

/-- The record list built by `_parse_spectrum_scan_measurements`. -/
def spectrumScanRecords (rows : List Row) (md : List (String × String)) (pt : PlateType) :
    Except String (List ExEmRec) := do
  let constF ← spectrumConst md
  let (_, recs) ← rows.foldlM (spectrumStep pt (isExSweepOf md) constF) (none, [])
  .ok recs

/-- `_parse_spectrum_scan_measurements`, as a DataFrame. -/
def parseSpectrumScanMeasurements (rows : List Row) (md : List (String × String))
    (pt : PlateType) : Except String Table :=
  (spectrumScanRecords rows md pt).map (exemRecsToTable (isExSweepOf md))

/-- One loop iteration of `_parse_kinetic_measurements`. -/
def kineticStep (pt : PlateType)
    (st : Option (List (Int × Well)) × List KineticRec) (r : Row) :
    Except String (Option (List (Int × Well)) × List KineticRec) := do
  let (idxs, dat) ← alignRow r
  if dat.contains "Cycle(Seconds)/Well" then
    let m := (idxs.zip dat).foldl (fun m p =>
      match wellFromString p.2 pt with
      | .ok w => dictInsert m p.1 w
      | .error _ => m) []
    .ok (some m, st.2)
  else do
    let timeS ← pyFloatE (dat.headD "")
    match st.1 with
    | none => .error "NameError: name index_to_well is not defined"
    | some m =>
      let recs2 := (idxs.zip dat).filterMap (fun p =>
        (m.lookup p.1).map (fun w =>
          { well_row := w.row, well_column := w.column, well_id := wellStr w,
            value := value_to_float p.2, time_s := timeS }))
      .ok (st.1, st.2 ++ recs2)

/-- The record list built by `_parse_kinetic_measurements` (its `metadata`
parameter is unused, as in the source). -/
def kineticRecords (rows : List Row) (pt : PlateType) : Except String (List KineticRec) := do
  let (_, recs) ← rows.foldlM (kineticStep pt) (none, [])
  .ok recs

/-- One DataFrame row of a `KineticRec`. -/
def kineticRecToRow (rec : KineticRec) : List Datum :=
  [.str rec.well_row, .num (mkRat rec.well_column 1), .str rec.well_id,
   datumOfFloat rec.value, datumOfFloat rec.time_s]

/-- `pd.DataFrame.from_records` for kinetic records. -/
def kineticRecsToTable (recs : List KineticRec) : Table :=
  if recs.isEmpty then ⟨[], []⟩
  else ⟨["well_row", "well_column", "well_id", "value", "time_s"], recs.map kineticRecToRow⟩

/-- `_parse_kinetic_measurements`, as a DataFrame. -/
def parseKineticMeasurements (rows : List Row) (_metadata : List (String × String))
    (pt : PlateType) : Except String Table :=
  (kineticRecords rows pt).map kineticRecsToTable

/-- `microplate.MicroplateData`. -/
structure MicroplateData where
  measurements : Table
  name : String
  timestamp : Option DateTime
  plate_type : PlateType
  metadata : List (String × String)
deriving DecidableEq, Repr

/-- `_parse_plate_reader_xml`: split the section into metadata and
measurement rows, extract the named fields (with their defaults), dispatch
on the measurement type, raise for unknown types, and post-process the
resulting DataFrame. -/
def parsePlateReaderXml (plateXml : List (Option Row)) : Except String MicroplateData := do
  let (metadata, measRows) := collectMetaAndMeasurements plateXml
  let plate_name := (metadata.lookup "Plate name").getD ""
  let timestamp ← match metadata.lookup "Read Time" with
    | some rt => (strptime rt).map some
    | none => Except.ok none
  let plate_type ← match metadata.lookup "Well count" with
    | some wc => do
      let n ← pyInt ((splitStr ' ' wc).headD "")
      plateTypeOfInt n
    | none => Except.ok PlateType.plate96
  let mt := metadata.lookup "Measurement type"
  let df ←
    if mt = some "Endpoint" then parseEndpointMeasurements measRows plate_type
    else if mt = some "SpectrumScan" then
      parseSpectrumScanMeasurements measRows metadata plate_type
    else if mt = some "Kinetic" then parseKineticMeasurements measRows metadata plate_type
    else
      .error ("Unknown measurement type: " ++
        (match mt with | some s => s | none => "None") ++ ".")
  let df2 ← postProcess df
  .ok { measurements := df2, name := plate_name, timestamp := timestamp,
        plate_type := plate_type, metadata := metadata }

/-- Turn a section of row positions back into the rows themselves (`none`
marks the missing `find_previous` result). -/
def sectionRows (doc : List Row) (sec : List (Option Nat)) : List (Option Row) :=
  sec.map (fun o => o.bind (fun i => doc[i]?))

/-- `generate_plate_measurements` (consumed by `parse` into a list): raise
when no plate sections were found, otherwise parse each section in document
order; a raised error anywhere discards all results. -/
def generatePlateMeasurements (doc : List Row) : Except String (List MicroplateData) :=
  let lists := getListsOfPlateReaderXml doc
  if lists.isEmpty then
    .error "Unable to parse any data from the plate reader. Check contents of XML file."
  else lists.mapM (fun sec => parsePlateReaderXml (sectionRows doc sec))

/-- A document with no plate-start row anywhere. -/
def wDocNoPlates : List Row :=
  [⟨[⟨none, some "x"⟩]⟩]

/-- A document whose single plate declares the unknown measurement type
`"Foo"`. -/
def wDocBadMt : List Row :=
  [⟨[⟨none, some "junk"⟩]⟩,
   ⟨[⟨none, some "Plate name"⟩, ⟨none, some "P1"⟩]⟩,
   ⟨[⟨none, some "Measurement type"⟩, ⟨none, some "Foo"⟩]⟩,
   ⟨[⟨none, some "Well data"⟩]⟩]

/-- A complete spectrum-scan plate section with no "Read Time" and no
"Well count" metadata. -/
def wSpecPlate : List (Option Row) :=
  [some ⟨[⟨none, some "Plate name"⟩, ⟨none, some "P1"⟩]⟩,
   some ⟨[⟨none, some "Measurement type"⟩, ⟨none, some "SpectrumScan"⟩]⟩,
   some ⟨[⟨none, some "Excitation sweep"⟩, ⟨none, some "True"⟩]⟩,
   some ⟨[⟨none, some "Emission start"⟩, ⟨none, some "525"⟩]⟩,
   some ⟨[⟨none, some "Well data"⟩]⟩,
   some ⟨[⟨none, some "Wavelength/Well"⟩, ⟨none, some "A01"⟩]⟩,
   some ⟨[⟨none, some "450"⟩, ⟨none, some "0.5"⟩]⟩]

/-- The same spectrum-scan plate section but with the "Emission start"
wavelength bound absent. -/
def wSpecPlateNoEmStart : List (Option Row) :=
  [some ⟨[⟨none, some "Plate name"⟩, ⟨none, some "P1"⟩]⟩,
   some ⟨[⟨none, some "Measurement type"⟩, ⟨none, some "SpectrumScan"⟩]⟩,
   some ⟨[⟨none, some "Excitation sweep"⟩, ⟨none, some "True"⟩]⟩,
   some ⟨[⟨none, some "Well data"⟩]⟩,
   some ⟨[⟨none, some "Wavelength/Well"⟩, ⟨none, some "A01"⟩]⟩,
   some ⟨[⟨none, some "450"⟩, ⟨none, some "0.5"⟩]⟩]

/-- Spectrum-scan metadata for an excitation sweep with emission held at 525. -/
def wSpecMd : List (String × String) :=
  [("Excitation sweep", "True"), ("Emission start", "525")]

/-- Spectrum-scan measurement rows: a header row and one data row. -/
def wSpecMeasRows : List Row :=
  [⟨[⟨none, some "Wavelength/Well"⟩, ⟨none, some "A01"⟩]⟩,
   ⟨[⟨none, some "450"⟩, ⟨none, some "0.5"⟩]⟩]

/-- Spectrum-scan measurement rows whose data row has a non-numeric leading
cell. -/
def wSpecBadRows : List Row :=
  [⟨[⟨none, some "Wavelength/Well"⟩, ⟨none, some "A01"⟩]⟩,
   ⟨[⟨none, some "abc"⟩, ⟨none, some "1"⟩]⟩]

/-- Kinetic measurement rows whose data row has a non-numeric leading cell. -/
def wKinBadRows : List Row :=
  [⟨[⟨none, some "Cycle(Seconds)/Well"⟩, ⟨none, some "A01"⟩]⟩,
   ⟨[⟨none, some "abc"⟩, ⟨none, some "1"⟩]⟩]

/-- A document with two plates (plate-start rows at positions 1 and 4). -/
def wDocTwoPlates : List Row :=
  [⟨[⟨none, some "meta"⟩]⟩, ⟨[⟨none, some "Plate name"⟩, ⟨none, some "P1"⟩]⟩,
   ⟨[⟨none, some "d"⟩]⟩, ⟨[⟨none, some "meta"⟩]⟩,
   ⟨[⟨none, some "Plate name"⟩, ⟨none, some "P2"⟩]⟩, ⟨[⟨none, some "d"⟩]⟩]

/-- A document with one junk row before the first plate's header row
(plate-start row at position 2). -/
def wDocJunkFirst : List Row :=
  [⟨[⟨none, some "junk"⟩]⟩, ⟨[⟨none, some "header"⟩]⟩,
   ⟨[⟨none, some "Plate name"⟩, ⟨none, some "P1"⟩]⟩]

/-- The boundary positions of the plate sections: section `i` starts at the
row before the `i`-th plate-start row, and the final boundary is the
document length. -/
def secBound (doc : List Row) (i : Nat) : Nat :=
  if i < (plateStartIdxs doc).length then (plateStartIdxs doc).getD i 0 - 1 else doc.length

/-- The positions selected by a Boolean mask. -/
def maskIdxs (k : List Bool) : List Nat :=
  (List.range k.length).filter (fun j => k.getD j false)

example : forwardFillIndices [none, some 3, none] 0 = [0, 3, 4] := by decide

example : forwardFillIndices [some 5, none, none] 2 = [2, 3, 4] := by decide

example : forwardFillIndices [none, some 2, none, some 8, none] 0 = [0, 2, 3, 8, 9] := by decide

example : value_to_float "0.196" = .finite (mkRat 196 1000) := by decide

example : value_to_float "Error" = .nan := by decide

example : value_to_float "1.2E-5" = .finite (mkRat 12 1000000) := by decide

example : value_to_float "inf" = .inf true := by decide

example : pyInt " 96 " = .ok 96 := by decide

example :
    isPlateStart ⟨[⟨none, some "Plate name"⟩, ⟨none, some "P1"⟩]⟩ = true := by decide

example :
    isPlateStart ⟨[⟨none, some "X"⟩, ⟨none, some "Plate name"⟩]⟩ = false := by decide

example :
    getListsOfPlateReaderXml
      [⟨[⟨none, some "meta"⟩]⟩, ⟨[⟨none, some "Plate name"⟩, ⟨none, some "P1"⟩]⟩,
       ⟨[⟨none, some "d"⟩]⟩, ⟨[⟨none, some "meta"⟩]⟩,
       ⟨[⟨none, some "Plate name"⟩, ⟨none, some "P2"⟩]⟩, ⟨[⟨none, some "d"⟩]⟩]
    = [[some 0, some 1, some 2], [some 3, some 4, some 5]] := by decide

example : wellFromString "A01" .plate96 = .ok ⟨"A", 1⟩ := by decide

example : wellStr ⟨"A", 1⟩ = "A01" := by decide

example : (wellFromString "Wavelength/Well" .plate96).isOk = false := by decide

example :
    collectMetaAndMeasurements
      [some ⟨[⟨none, some "Plate name"⟩, ⟨none, some "P1"⟩]⟩,
       some ⟨[⟨none, some "Well data"⟩]⟩,
       some ⟨[⟨none, some "450"⟩, ⟨none, some "0.5"⟩]⟩]
    = ([("Plate name", "P1"), ("Well data", "")],
       [⟨[⟨none, some "450"⟩, ⟨none, some "0.5"⟩]⟩]) := by decide

example :
    postProcess ⟨["well_id", "value"], [[.str "A01", .na]]⟩ = .ok ⟨[], []⟩ := by decide

example :
    postProcess ⟨[], []⟩ = .error "KeyError: value" := by decide

example :
    postProcess ⟨["well_id", "value"], [[.str "A01", .num 1], [.str "A02", .na]]⟩
      = .ok ⟨["well_id", "value"], [[.str "A01", .num 1]]⟩ := by decide

lemma ffiGo_length (t : List (Option Int)) : ∀ p : Int, (ffiGo p t).length = t.length := by
  induction t with
  | nil => intro p; rfl
  | cons x rest ih =>
    intro p
    cases x with
    | none => simpa [ffiGo] using ih (p + 1)
    | some i => simpa [ffiGo] using ih i

lemma ffiGo_getD (t : List (Option Int)) : ∀ (p : Int) (k : Nat), k < t.length →
    (ffiGo p t).getD k 0 =
      match t.getD k none with
      | some e => e
      | none => (if k = 0 then p else (ffiGo p t).getD (k - 1) 0) + 1 := by
  induction t with
  | nil => intro p k hk; simp at hk
  | cons x rest ih =>
    intro p k hk
    cases x with
    | none =>
      cases k with
      | zero => simp [ffiGo]
      | succ k2 =>
        have hk2 : k2 < rest.length := by simpa using hk
        have := ih (p + 1) k2 hk2
        cases k2 with
        | zero =>
          simpa [ffiGo, List.getD_cons_succ, List.getD_cons_zero] using this
        | succ k3 =>
          simpa [ffiGo, List.getD_cons_succ] using this
    | some i =>
      cases k with
      | zero => simp [ffiGo]
      | succ k2 =>
        have hk2 : k2 < rest.length := by simpa using hk
        have := ih i k2 hk2
        cases k2 with
        | zero =>
          simpa [ffiGo, List.getD_cons_succ, List.getD_cons_zero] using this
        | succ k3 =>
          simpa [ffiGo, List.getD_cons_succ] using this

/-- C4: for every list of optional integer indices and every starting
offset, `forward_fill_indices` returns a list whose first element is the
starting offset regardless of the first element's own declared index; every
subsequent element equals its explicit index verbatim when present, and one
more than the previous reconciled index when absent; in particular
`[None, "3", None]` with start 0 gives `[0, 3, 4]` and `["5", None, None]`
with start 2 gives `[2, 3, 4]`. -/
theorem forward_fill_spec :
    (∀ (l : List (Option Int)) (s : Int),
        (forwardFillIndices l s).head? = some s ∧
        (forwardFillIndices l s).length = max 1 l.length ∧
        ∀ k, 1 ≤ k → k < l.length →
          (forwardFillIndices l s).getD k 0 =
            match l.getD k none with
            | some e => e
            | none => (forwardFillIndices l s).getD (k - 1) 0 + 1) ∧
    forwardFillIndices [none, some 3, none] 0 = [0, 3, 4] ∧
    forwardFillIndices [some 5, none, none] 2 = [2, 3, 4] := by
  refine ⟨fun l s => ⟨rfl, ?_, ?_⟩, by decide, by decide⟩
  · cases l with
    | nil => rfl
    | cons x rest =>
      simp only [forwardFillIndices, List.length_cons, List.tail_cons, ffiGo_length]
      omega
  · intro k hk1 hklen
    cases l with
    | nil => simp at hklen
    | cons x rest =>
      cases k with
      | zero => omega
      | succ k2 =>
        have hk2 : k2 < rest.length := by simpa using hklen
        have h := ffiGo_getD rest s k2 hk2
        have hcons : (forwardFillIndices (x :: rest) s).getD (k2 + 1) 0
            = (ffiGo s rest).getD k2 0 := by
          simp [forwardFillIndices, List.getD_cons_succ]
        have htail : (x :: rest).getD (k2 + 1) none = rest.getD k2 none := by
          simp [List.getD_cons_succ]
        rw [hcons, htail, h]
        cases hx : rest.getD k2 none with
        | some e => rfl
        | none =>
          cases k2 with
          | zero => simp [forwardFillIndices]
          | succ k3 => simp [forwardFillIndices, List.getD_cons_succ]

/-- C4 witness: the third element of `forward_fill_indices([None, "3", None, None], 0)`
is one more than the second. -/
theorem forward_fill_spec_witness :
    (forwardFillIndices [none, some 3, none, none] 0).getD 2 0 =
      (forwardFillIndices [none, some 3, none, none] 0).getD 1 0 + 1 := by
  have h := (forward_fill_spec.1 [none, some 3, none, none] 0).2.2 2 (by decide) (by decide)
  simpa using h

lemma ffiGo_chain (t : List (Option Int)) : ∀ p : Int, pacedB p t = true →
    List.Chain' (· ≤ ·) (p :: ffiGo p t) := by
  induction t with
  | nil => intro p _; exact List.chain'_singleton p
  | cons x rest ih =>
    intro p hp
    cases x with
    | none =>
      have hp2 : pacedB (p + 1) rest = true := by simpa [pacedB] using hp
      exact List.chain'_cons.mpr ⟨by omega, ih (p + 1) hp2⟩
    | some e =>
      have hp2 : p ≤ e ∧ pacedB e rest = true := by
        simpa [pacedB, Bool.and_eq_true, decide_eq_true_eq] using hp
      exact List.chain'_cons.mpr ⟨hp2.1, ih e hp2.2⟩

/-- C5 (amended): for every nonempty sparse-index sequence of length N and
starting offset s, `forward_fill_indices` returns a sequence of length N
whose first element is s; the output is non-decreasing whenever every
explicit index is at least the reconciled value of the element before it
(`pacedB`).  Explicit indices being merely non-decreasing does not suffice,
and the empty sequence returns `[s]` of length 1. -/
theorem forward_fill_shape (l : List (Option Int)) (s : Int) (hne : l ≠ []) :
    (forwardFillIndices l s).length = l.length ∧
    (forwardFillIndices l s).head? = some s ∧
    (pacedB s l.tail = true → List.Chain' (· ≤ ·) (forwardFillIndices l s)) := by
  refine ⟨?_, rfl, fun hp => ffiGo_chain l.tail s hp⟩
  cases l with
  | nil => exact absurd rfl hne
  | cons x rest =>
    simp only [forwardFillIndices, List.length_cons, List.tail_cons, ffiGo_length]

/-- C5 witness: the amended statement at `[None, "3", None]` with start 0. -/
theorem forward_fill_shape_witness :
    (forwardFillIndices [none, some 3, none] 0).length = 3 ∧
    (forwardFillIndices [none, some 3, none] 0).head? = some 0 ∧
    List.Chain' (· ≤ ·) (forwardFillIndices [none, some 3, none] 0) := by
  have h := forward_fill_shape [none, some 3, none] 0 (by decide)
  exact ⟨h.1, h.2.1, h.2.2 (by decide)⟩

/-- C5 counterexample: for `[None, "3", None, "3"]` the explicit indices
`[3, 3]` are non-decreasing, yet the reconciled output `[0, 3, 4, 3]` is
not; moreover the empty sequence yields a sequence of length 1, not 0. -/
theorem forward_fill_mono_counterexample :
    forwardFillIndices [none, some 3, none, some 3] 0 = [0, 3, 4, 3] ∧
    List.Chain' (· ≤ ·) (([none, some 3, none, some 3] : List (Option Int)).filterMap id) ∧
    ¬ List.Chain' (· ≤ ·) (forwardFillIndices [none, some 3, none, some 3] 0) ∧
    (forwardFillIndices ([] : List (Option Int)) 0).length = 1 := by
  refine ⟨by decide, ?_, ?_, by decide⟩
  · have h : ([none, some 3, none, some 3] : List (Option Int)).filterMap id = [3, 3] := by
      decide
    rw [h]
    norm_num [List.chain'_cons]
  · have h : forwardFillIndices [none, some 3, none, some 3] 0 = [0, 3, 4, 3] := by decide
    rw [h]
    norm_num [List.chain'_cons]

/-- C6 counterexample: on input `"inf"` value coercion returns positive
infinity, which is neither a finite float nor the missing-value sentinel
NaN. -/
theorem value_to_float_inf_counterexample :
    value_to_float "inf" = PyFloat.inf true ∧
    PyFloat.isFinite (value_to_float "inf") = false ∧
    value_to_float "inf" ≠ PyFloat.nan := by
  refine ⟨by decide, by decide, by decide⟩

/-- C6 (amended): value coercion is total and never raises: every string
yields a float — finite, infinite (e.g. for input `"inf"`), or NaN — with
non-numeric text degrading to the NaN sentinel; `"0.196"` yields 0.196,
`"Error"` yields missing, and `"1.2E-5"` yields a small positive float. -/
theorem value_to_float_total :
    (∀ s : String,
        (∃ q, value_to_float s = .finite q) ∨
        (∃ b, value_to_float s = .inf b) ∨
        value_to_float s = .nan) ∧
    value_to_float "0.196" = .finite (mkRat 196 1000) ∧
    value_to_float "Error" = .nan ∧
    value_to_float "1.2E-5" = .finite (mkRat 12 1000000) ∧
    (0 : ℚ) < mkRat 12 1000000 := by
  refine ⟨fun s => ?_, by decide, by decide, by decide, by decide⟩
  cases h : value_to_float s with
  | finite q => exact Or.inl ⟨q, rfl⟩
  | inf b => exact Or.inr (Or.inl ⟨b, rfl⟩)
  | nan => exact Or.inr (Or.inr rfl)

lemma except_isError_bind {β γ : Type} (x : Except String β) (f : β → Except String γ)
    (h : ∀ b, x = .ok b → ∃ e, f b = .error e) : ∃ e, (x >>= f) = .error e := by
  cases x with
  | error e => exact ⟨e, rfl⟩
  | ok b => simpa using h b rfl

lemma exists_error_mapM {α β : Type} (f : α → Except String β) (l : List α) (a : α)
    (ha : a ∈ l) (hf : ∃ e, f a = .error e) : ∃ e, l.mapM f = .error e := by
  induction l with
  | nil => simp at ha
  | cons x rest ih =>
    rw [List.mapM_cons]
    rcases List.mem_cons.mp ha with h1 | h2
    · obtain ⟨e, he⟩ := hf
      rw [h1] at he
      rw [he]
      exact ⟨e, rfl⟩
    · cases hx : f x with
      | error e => exact ⟨e, rfl⟩
      | ok y =>
        obtain ⟨e, he⟩ := ih h2
        refine ⟨e, ?_⟩
        show rest.mapM f >>= _ = _
        rw [he]
        rfl

lemma foldlM_error_of_mem {σ α : Type} (f : σ → α → Except String σ) (l : List α) (a : α)
    (ha : a ∈ l) (hf : ∀ s, ∃ e, f s a = .error e) :
    ∀ s0, ∃ e, List.foldlM f s0 l = .error e := by
  induction l with
  | nil => simp at ha
  | cons x rest ih =>
    intro s0
    rw [List.foldlM_cons]
    rcases List.mem_cons.mp ha with h1 | h2
    · obtain ⟨e, he⟩ := hf s0
      rw [h1] at he
      rw [he]
      exact ⟨e, rfl⟩
    · cases hx : f s0 x with
      | error e => exact ⟨e, rfl⟩
      | ok s1 =>
        obtain ⟨e, he⟩ := ih h2 s1
        exact ⟨e, he⟩

lemma parsePlate_bad_mt_error (plateXml : List (Option Row))
    (hmt : (collectMetaAndMeasurements plateXml).1.lookup "Measurement type" ∉
      ([some "Endpoint", some "SpectrumScan", some "Kinetic"] : List (Option String))) :
    ∃ e, parsePlateReaderXml plateXml = .error e := by
  simp only [List.mem_cons, List.not_mem_nil, or_false, not_or] at hmt
  obtain ⟨h1, h2, h3⟩ := hmt
  simp only [parsePlateReaderXml]
  cases hrt : List.lookup "Read Time" (collectMetaAndMeasurements plateXml).1 with
  | some rt =>
    apply except_isError_bind
    intro ts _
    cases hwc : List.lookup "Well count" (collectMetaAndMeasurements plateXml).1 with
    | some wc =>
      apply except_isError_bind
      intro n _
      apply except_isError_bind
      intro pt _
      rw [if_neg h1, if_neg h2, if_neg h3]
      exact ⟨_, rfl⟩
    | none =>
      apply except_isError_bind
      intro pt _
      rw [if_neg h1, if_neg h2, if_neg h3]
      exact ⟨_, rfl⟩
  | none =>
    apply except_isError_bind
    intro ts _
    cases hwc : List.lookup "Well count" (collectMetaAndMeasurements plateXml).1 with
    | some wc =>
      apply except_isError_bind
      intro n _
      apply except_isError_bind
      intro pt _
      rw [if_neg h1, if_neg h2, if_neg h3]
      exact ⟨_, rfl⟩
    | none =>
      apply except_isError_bind
      intro pt _
      rw [if_neg h1, if_neg h2, if_neg h3]
      exact ⟨_, rfl⟩

/-- C2: a document with zero plate-start rows fails the whole parse with an
explicit error; nothing (in particular not an empty list) is returned. -/
theorem no_plate_markers_fails (doc : List Row) (h : plateStartIdxs doc = []) :
    generatePlateMeasurements doc =
      .error "Unable to parse any data from the plate reader. Check contents of XML file." ∧
    ∀ l, generatePlateMeasurements doc ≠ .ok l := by
  have hg : getListsOfPlateReaderXml doc = [] := by
    simp [getListsOfPlateReaderXml, h]
  constructor
  · simp [generatePlateMeasurements, hg]
  · intro l hl
    simp [generatePlateMeasurements, hg] at hl

/-- C2 witness: a one-row document with no "Plate name" marker. -/
theorem no_plate_markers_fails_witness :
    generatePlateMeasurements wDocNoPlates =
      .error "Unable to parse any data from the plate reader. Check contents of XML file." :=
  (no_plate_markers_fails wDocNoPlates (by decide)).1

/-- C3: a plate whose "Measurement type" metadata is not one of "Endpoint",
"SpectrumScan", "Kinetic" (including an absent field) fails that plate's
extraction with an error, and such a plate anywhere in a document makes the
overall parse fail — no partial results are returned. -/
theorem unknown_measurement_type_fails :
    (∀ plateXml : List (Option Row),
        (collectMetaAndMeasurements plateXml).1.lookup "Measurement type" ∉
          ([some "Endpoint", some "SpectrumScan", some "Kinetic"] : List (Option String)) →
        ∃ e, parsePlateReaderXml plateXml = .error e) ∧
    (∀ (doc : List Row) (sec : List (Option Nat)),
        sec ∈ getListsOfPlateReaderXml doc →
        (collectMetaAndMeasurements (sectionRows doc sec)).1.lookup "Measurement type" ∉
          ([some "Endpoint", some "SpectrumScan", some "Kinetic"] : List (Option String)) →
        ∃ e, generatePlateMeasurements doc = .error e) := by
  refine ⟨parsePlate_bad_mt_error, ?_⟩
  intro doc sec hsec hmt
  have hne : (getListsOfPlateReaderXml doc).isEmpty = false := by
    cases hl : getListsOfPlateReaderXml doc with
    | nil => rw [hl] at hsec; simp at hsec
    | cons x rest => rfl
  simp only [generatePlateMeasurements, hne, Bool.false_eq_true, if_false]
  exact exists_error_mapM _ _ sec hsec (parsePlate_bad_mt_error _ hmt)

/-- C3 witness: both parts at a concrete plate declaring type "Foo". -/
theorem unknown_measurement_type_fails_witness :
    (∃ e, parsePlateReaderXml
        (sectionRows wDocBadMt [some 0, some 1, some 2, some 3]) = .error e) ∧
    ∃ e, generatePlateMeasurements wDocBadMt = .error e :=
  ⟨unknown_measurement_type_fails.1 _ (by decide),
   unknown_measurement_type_fails.2 wDocBadMt [some 0, some 1, some 2, some 3]
     (by decide) (by decide)⟩

lemma ebind_ok {β γ : Type} (b : β) (f : β → Except String γ) :
    (Except.ok b >>= f : Except String γ) = f b := rfl

lemma spectrumStep_error (pt : PlateType) (isEx : Bool) (constF : PyFloat) (r : Row)
    (hnh : (rowStrData r).contains "Wavelength/Well" = false)
    (hbad : pyFloatParse ((rowStrData r).headD "") = none) :
    ∀ st, ∃ e, spectrumStep pt isEx constF st r = .error e := by
  intro st
  cases hc : r.cells with
  | nil =>
    have ha : alignRow r = .error "IndexError: list index out of range" := by
      simp [alignRow, rowStrIndices, hc]
    refine ⟨"IndexError: list index out of range", ?_⟩
    simp only [spectrumStep, ha]
    rfl
  | cons c cs =>
    have ha : alignRow r =
        .ok (forwardFillIndices ((c :: cs).map Cell.idx) ((c.idx).getD 0), rowStrData r) := by
      simp [alignRow, rowStrIndices, hc]
    have hbad2 : pyFloatParse ((rowStrData r).head?.getD "") = none := by
      rw [← List.headD_eq_head?_getD]
      exact hbad
    have hp : pyFloatE ((rowStrData r).headD "") =
        .error ("ValueError: could not convert string to float: " ++ (rowStrData r).headD "") := by
      simp [pyFloatE, hbad2]
    refine ⟨"ValueError: could not convert string to float: " ++ (rowStrData r).headD "", ?_⟩
    simp only [spectrumStep, ha, ebind_ok]
    rw [if_neg (show ¬ ((rowStrData r).contains "Wavelength/Well" = true) by simpa using hnh)]
    rw [hp]
    rfl

lemma kineticStep_error (pt : PlateType) (r : Row)
    (hnh : (rowStrData r).contains "Cycle(Seconds)/Well" = false)
    (hbad : pyFloatParse ((rowStrData r).headD "") = none) :
    ∀ st, ∃ e, kineticStep pt st r = .error e := by
  intro st
  cases hc : r.cells with
  | nil =>
    have ha : alignRow r = .error "IndexError: list index out of range" := by
      simp [alignRow, rowStrIndices, hc]
    refine ⟨"IndexError: list index out of range", ?_⟩
    simp only [kineticStep, ha]
    rfl
  | cons c cs =>
    have ha : alignRow r =
        .ok (forwardFillIndices ((c :: cs).map Cell.idx) ((c.idx).getD 0), rowStrData r) := by
      simp [alignRow, rowStrIndices, hc]
    have hbad2 : pyFloatParse ((rowStrData r).head?.getD "") = none := by
      rw [← List.headD_eq_head?_getD]
      exact hbad
    have hp : pyFloatE ((rowStrData r).headD "") =
        .error ("ValueError: could not convert string to float: " ++ (rowStrData r).headD "") := by
      simp [pyFloatE, hbad2]
    refine ⟨"ValueError: could not convert string to float: " ++ (rowStrData r).headD "", ?_⟩
    simp only [kineticStep, ha, ebind_ok]
    rw [if_neg (show ¬ ((rowStrData r).contains "Cycle(Seconds)/Well" = true) by simpa using hnh)]
    rw [hp]
    rfl

lemma spectrumRecords_error (rows : List Row) (md : List (String × String)) (pt : PlateType)
    (r : Row) (hr : r ∈ rows)
    (hnh : (rowStrData r).contains "Wavelength/Well" = false)
    (hbad : pyFloatParse ((rowStrData r).headD "") = none) :
    ∃ e, spectrumScanRecords rows md pt = .error e := by
  simp only [spectrumScanRecords]
  cases hcf : spectrumConst md with
  | error e => exact ⟨e, rfl⟩
  | ok cf =>
    obtain ⟨e, he⟩ :=
      foldlM_error_of_mem (spectrumStep pt (isExSweepOf md) cf) rows r hr
        (spectrumStep_error pt (isExSweepOf md) cf r hnh hbad) (none, [])
    refine ⟨e, ?_⟩
    rw [ebind_ok]
    show List.foldlM _ _ _ >>= _ = _
    rw [he]
    rfl

lemma kineticRecords_error (rows : List Row) (pt : PlateType)
    (r : Row) (hr : r ∈ rows)
    (hnh : (rowStrData r).contains "Cycle(Seconds)/Well" = false)
    (hbad : pyFloatParse ((rowStrData r).headD "") = none) :
    ∃ e, kineticRecords rows pt = .error e := by
  simp only [kineticRecords]
  obtain ⟨e, he⟩ :=
    foldlM_error_of_mem (kineticStep pt) rows r hr
      (kineticStep_error pt r hnh hbad) (none, [])
  refine ⟨e, ?_⟩
  show List.foldlM _ _ _ >>= _ = _
  rw [he]
  rfl

/-- C10: in the spectrum-scan and kinetic parsers the leading cell of every
non-header measurement row is converted to a float without any guard: a
non-numeric leading cell (e.g. blank or a label) raises an error that fails
the whole plate's extraction, instead of degrading to a missing value the
way non-numeric measurement cells do. -/
theorem leading_cell_float_unguarded :
    (∀ (rows : List Row) (md : List (String × String)) (pt : PlateType) (r : Row),
        r ∈ rows →
        (rowStrData r).contains "Wavelength/Well" = false →
        pyFloatParse ((rowStrData r).headD "") = none →
        ∃ e, parseSpectrumScanMeasurements rows md pt = .error e) ∧
    (∀ (rows : List Row) (md : List (String × String)) (pt : PlateType) (r : Row),
        r ∈ rows →
        (rowStrData r).contains "Cycle(Seconds)/Well" = false →
        pyFloatParse ((rowStrData r).headD "") = none →
        ∃ e, parseKineticMeasurements rows md pt = .error e) := by
  constructor
  · intro rows md pt r hr hnh hbad
    obtain ⟨e, he⟩ := spectrumRecords_error rows md pt r hr hnh hbad
    refine ⟨e, ?_⟩
    show (spectrumScanRecords rows md pt).map _ = _
    rw [he]
    rfl
  · intro rows md pt r hr hnh hbad
    obtain ⟨e, he⟩ := kineticRecords_error rows pt r hr hnh hbad
    refine ⟨e, ?_⟩
    show (kineticRecords rows pt).map _ = _
    rw [he]
    rfl

/-- C10 witness: a spectrum-scan and a kinetic plate whose data row has the
non-numeric leading cell "abc". -/
theorem leading_cell_float_unguarded_witness :
    (∃ e, parseSpectrumScanMeasurements wSpecBadRows wSpecMd .plate96 = .error e) ∧
    ∃ e, parseKineticMeasurements wKinBadRows [] .plate96 = .error e :=
  ⟨leading_cell_float_unguarded.1 wSpecBadRows wSpecMd .plate96
      ⟨[⟨none, some "abc"⟩, ⟨none, some "1"⟩]⟩ (by decide) (by decide) (by decide),
   leading_cell_float_unguarded.2 wKinBadRows [] .plate96
      ⟨[⟨none, some "abc"⟩, ⟨none, some "1"⟩]⟩ (by decide) (by decide) (by decide)⟩

lemma spectrumStep_ok_mem (pt : PlateType) (isEx : Bool) (constF : PyFloat)
    (st st1 : Option (List (Int × Well)) × List ExEmRec) (r : Row)
    (hstep : spectrumStep pt isEx constF st r = .ok st1)
    (rec : ExEmRec) (hrec : rec ∈ st1.2) :
    rec ∈ st.2 ∨
      ((rowStrData r).contains "Wavelength/Well" = false ∧
       pyFloatE ((rowStrData r).headD "") =
         .ok (if isEx then rec.excitation_nm else rec.emission_nm) ∧
       (if isEx then rec.emission_nm else rec.excitation_nm) = constF) := by
  cases hc : rowStrIndices r with
  | nil =>
    have ha : alignRow r = .error "IndexError: list index out of range" := by
      simp [alignRow, hc]
    have hse : spectrumStep pt isEx constF st r =
        .error "IndexError: list index out of range" := by
      simp only [spectrumStep, ha]
      rfl
    rw [hse] at hstep
    cases hstep
  | cons i0 rest0 =>
    have ha : alignRow r =
        .ok (forwardFillIndices (i0 :: rest0) (i0.getD 0), rowStrData r) := by
      simp [alignRow, hc]
    simp only [spectrumStep, ha, ebind_ok] at hstep
    by_cases hdr : (rowStrData r).contains "Wavelength/Well" = true
    · rw [if_pos hdr] at hstep
      have h1 : st1.2 = st.2 := by
        have := Except.ok.inj hstep
        rw [← this]
      rw [h1] at hrec
      exact Or.inl hrec
    · rw [if_neg hdr] at hstep
      cases hv : pyFloatE ((rowStrData r).headD "") with
      | error e =>
        rw [hv] at hstep
        exact Except.noConfusion hstep
      | ok varWl =>
        rw [hv] at hstep
        cases hst : st.1 with
        | none =>
          rw [hst] at hstep
          exact Except.noConfusion hstep
        | some m =>
          rw [hst] at hstep
          have h1 := Except.ok.inj hstep
          have h2 : st1.2 = st.2 ++
              ((forwardFillIndices (i0 :: rest0) (i0.getD 0)).zip (rowStrData r)).filterMap
                (fun p => (m.lookup p.1).map (fun w =>
                  ({ well_row := w.row, well_column := w.column, well_id := wellStr w,
                     value := value_to_float p.2,
                     excitation_nm := if isEx then varWl else constF,
                     emission_nm := if isEx then constF else varWl } : ExEmRec))) := by
            rw [← h1]
          rw [h2] at hrec
          rcases List.mem_append.mp hrec with hin | hnew
          · exact Or.inl hin
          · obtain ⟨p, _, hmap⟩ := List.mem_filterMap.mp hnew
            obtain ⟨w, _, hw2⟩ := Option.map_eq_some'.mp hmap
            subst hw2
            refine Or.inr ⟨by simpa using hdr, ?_, ?_⟩
            · cases isEx with
              | true => rfl
              | false => rfl
            · cases isEx with
              | true => rfl
              | false => rfl

lemma spectrumFold_mem (pt : PlateType) (isEx : Bool) (constF : PyFloat) (rows : List Row) :
    ∀ (st out : Option (List (Int × Well)) × List ExEmRec),
      List.foldlM (spectrumStep pt isEx constF) st rows = .ok out →
      ∀ rec ∈ out.2, rec ∈ st.2 ∨
        ∃ r ∈ rows,
          (rowStrData r).contains "Wavelength/Well" = false ∧
          pyFloatE ((rowStrData r).headD "") =
            .ok (if isEx then rec.excitation_nm else rec.emission_nm) ∧
          (if isEx then rec.emission_nm else rec.excitation_nm) = constF := by
  induction rows with
  | nil =>
    intro st out hout rec hrec
    have hso : st = out := Except.ok.inj hout
    exact Or.inl (hso ▸ hrec)
  | cons r rows ih =>
    intro st out hout rec hrec
    rw [List.foldlM_cons] at hout
    cases hstep : spectrumStep pt isEx constF st r with
    | error e =>
      rw [hstep] at hout
      exact Except.noConfusion hout
    | ok st1 =>
      rw [hstep] at hout
      have hout2 : List.foldlM (spectrumStep pt isEx constF) st1 rows = .ok out := hout
      rcases ih st1 out hout2 rec hrec with hin | ⟨r2, hr2, hp⟩
      · rcases spectrumStep_ok_mem pt isEx constF st st1 r hstep rec hin with h | h
        · exact Or.inl h
        · exact Or.inr ⟨r, List.mem_cons_self r rows, h⟩
      · exact Or.inr ⟨r2, List.mem_cons_of_mem _ hr2, hp⟩

lemma spectrumConst_ok (md : List (String × String)) (cf : PyFloat)
    (h : spectrumConst md = .ok cf) :
    ∃ es, (if isExSweepOf md then md.lookup "Emission start"
           else md.lookup "Excitation start") = some es ∧ pyFloatE es = .ok cf := by
  unfold spectrumConst at h
  cases hl : (if isExSweepOf md then md.lookup "Emission start"
              else md.lookup "Excitation start") with
  | none => rw [hl] at h; cases h
  | some es => rw [hl] at h; exact ⟨es, rfl, h⟩

/-- C7: for a spectrum-scan plate, when the metadata flag "Excitation sweep"
equals "True" every output record's emission_nm is held constant at the
parsed "Emission start" value and its excitation_nm is the float of some
non-header data row's leading cell; otherwise every record's excitation_nm
is held constant at the parsed "Excitation start" value and its emission_nm
is the float of some non-header data row's leading cell. -/
theorem spectrum_sweep_axes (rows : List Row) (md : List (String × String)) (pt : PlateType)
    (recs : List ExEmRec) (hok : spectrumScanRecords rows md pt = .ok recs) :
    (isExSweepOf md = true →
      ∃ es cw, md.lookup "Emission start" = some es ∧ pyFloatE es = .ok cw ∧
        ∀ rec ∈ recs, rec.emission_nm = cw ∧
          ∃ r ∈ rows, (rowStrData r).contains "Wavelength/Well" = false ∧
            pyFloatE ((rowStrData r).headD "") = .ok rec.excitation_nm) ∧
    (isExSweepOf md = false →
      ∃ es cw, md.lookup "Excitation start" = some es ∧ pyFloatE es = .ok cw ∧
        ∀ rec ∈ recs, rec.excitation_nm = cw ∧
          ∃ r ∈ rows, (rowStrData r).contains "Wavelength/Well" = false ∧
            pyFloatE ((rowStrData r).headD "") = .ok rec.emission_nm) := by
  unfold spectrumScanRecords at hok
  cases hcf : spectrumConst md with
  | error e =>
    rw [hcf] at hok
    exact Except.noConfusion hok
  | ok cf =>
    rw [hcf] at hok
    simp only [ebind_ok] at hok
    cases hfold : List.foldlM (spectrumStep pt (isExSweepOf md) cf) (none, []) rows with
    | error e =>
      rw [hfold] at hok
      exact Except.noConfusion hok
    | ok out =>
      rw [hfold] at hok
      have hrecs : out.2 = recs := Except.ok.inj hok
      obtain ⟨es, hes, hpe⟩ := spectrumConst_ok md cf hcf
      constructor
      · intro hEx
        rw [hEx, if_pos rfl] at hes
        refine ⟨es, cf, hes, hpe, ?_⟩
        intro rec hrec
        have h := spectrumFold_mem pt (isExSweepOf md) cf rows (none, []) out hfold rec
          (hrecs ▸ hrec)
        rcases h with hin | ⟨r, hr, hc1, hc2, hc3⟩
        · simp at hin
        · rw [hEx] at hc2 hc3
          simp only [if_pos rfl] at hc2 hc3
          exact ⟨hc3, r, hr, hc1, hc2⟩
      · intro hEx
        rw [hEx] at hes
        simp only [Bool.false_eq_true, if_false] at hes
        refine ⟨es, cf, hes, hpe, ?_⟩
        intro rec hrec
        have h := spectrumFold_mem pt (isExSweepOf md) cf rows (none, []) out hfold rec
          (hrecs ▸ hrec)
        rcases h with hin | ⟨r, hr, hc1, hc2, hc3⟩
        · simp at hin
        · rw [hEx] at hc2 hc3
          simp only [Bool.false_eq_true, if_false] at hc2 hc3
          exact ⟨hc3, r, hr, hc1, hc2⟩

/-- C7 witness: the excitation-sweep conjunct at a concrete plate with
"Emission start" 525 and one data row at wavelength 450. -/
theorem spectrum_sweep_axes_witness :
    ∃ es cw, wSpecMd.lookup "Emission start" = some es ∧ pyFloatE es = .ok cw ∧
      ∀ rec ∈ [({ well_row := "A", well_column := 1, well_id := "A01",
                  value := .finite (mkRat 1 2), excitation_nm := .finite (mkRat 450 1),
                  emission_nm := .finite (mkRat 525 1) } : ExEmRec)],
        rec.emission_nm = cw ∧
        ∃ r ∈ wSpecMeasRows, (rowStrData r).contains "Wavelength/Well" = false ∧
          pyFloatE ((rowStrData r).headD "") = .ok rec.excitation_nm :=
  (spectrum_sweep_axes wSpecMeasRows wSpecMd .plate96 _ (by decide)).1 (by decide)

lemma bind_ok_inv {β γ : Type} (x : Except String β) (f : β → Except String γ) (c : γ)
    (h : (x >>= f) = .ok c) : ∃ b, x = .ok b ∧ f b = .ok c := by
  cases x with
  | error e => exact Except.noConfusion h
  | ok b => exact ⟨b, rfl, h⟩

/-- C8 (amended): when a plate's extraction succeeds, an absent "Read Time"
field yields a record with no timestamp and an absent "Well count" field
defaults the plate size to 96 wells.  (Absent wavelength bounds do not
default: they fail the plate's extraction — see the counterexample.) -/
theorem missing_metadata_defaults (plateXml : List (Option Row)) (md : MicroplateData)
    (hok : parsePlateReaderXml plateXml = .ok md) :
    ((collectMetaAndMeasurements plateXml).1.lookup "Read Time" = none →
      md.timestamp = none) ∧
    ((collectMetaAndMeasurements plateXml).1.lookup "Well count" = none →
      md.plate_type = .plate96) := by
  simp only [parsePlateReaderXml] at hok
  constructor
  · intro hrt
    rw [hrt] at hok
    obtain ⟨ts, hts, hok⟩ := bind_ok_inv _ _ _ hok
    have hts2 : ts = none := (Except.ok.inj hts).symm
    cases hwc : List.lookup "Well count" (collectMetaAndMeasurements plateXml).1 with
    | some wc =>
      rw [hwc] at hok
      obtain ⟨n, _, hok⟩ := bind_ok_inv _ _ _ hok
      obtain ⟨pt2, _, hok⟩ := bind_ok_inv _ _ _ hok
      split at hok
      all_goals try split at hok
      all_goals try split at hok
      all_goals
        obtain ⟨df, _, hok⟩ := bind_ok_inv _ _ _ hok
      all_goals
        obtain ⟨df2, _, hok⟩ := bind_ok_inv _ _ _ hok
      all_goals
        have hmd := Except.ok.inj hok
      all_goals rw [← hmd]
      all_goals exact hts2
    | none =>
      rw [hwc] at hok
      obtain ⟨pt2, _, hok⟩ := bind_ok_inv _ _ _ hok
      split at hok
      all_goals try split at hok
      all_goals try split at hok
      all_goals
        obtain ⟨df, _, hok⟩ := bind_ok_inv _ _ _ hok
      all_goals
        obtain ⟨df2, _, hok⟩ := bind_ok_inv _ _ _ hok
      all_goals
        have hmd := Except.ok.inj hok
      all_goals rw [← hmd]
      all_goals exact hts2
  · intro hwc
    rw [hwc] at hok
    cases hrt : List.lookup "Read Time" (collectMetaAndMeasurements plateXml).1 with
    | some rt =>
      rw [hrt] at hok
      obtain ⟨ts, _, hok⟩ := bind_ok_inv _ _ _ hok
      obtain ⟨pt2, hpt, hok⟩ := bind_ok_inv _ _ _ hok
      have hpt2 : pt2 = .plate96 := (Except.ok.inj hpt).symm
      split at hok
      all_goals try split at hok
      all_goals try split at hok
      all_goals
        obtain ⟨df, _, hok⟩ := bind_ok_inv _ _ _ hok
      all_goals
        obtain ⟨df2, _, hok⟩ := bind_ok_inv _ _ _ hok
      all_goals
        have hmd := Except.ok.inj hok
      all_goals rw [← hmd]
      all_goals exact hpt2
    | none =>
      rw [hrt] at hok
      obtain ⟨ts, _, hok⟩ := bind_ok_inv _ _ _ hok
      obtain ⟨pt2, hpt, hok⟩ := bind_ok_inv _ _ _ hok
      have hpt2 : pt2 = .plate96 := (Except.ok.inj hpt).symm
      split at hok
      all_goals try split at hok
      all_goals try split at hok
      all_goals
        obtain ⟨df, _, hok⟩ := bind_ok_inv _ _ _ hok
      all_goals
        obtain ⟨df2, _, hok⟩ := bind_ok_inv _ _ _ hok
      all_goals
        have hmd := Except.ok.inj hok
      all_goals rw [← hmd]
      all_goals exact hpt2

/-- C8 counterexample: a spectrum-scan plate with "Excitation sweep" = "True"
and no "Emission start" metadata fails its extraction with a raised
`TypeError` (from `float(None)`), instead of falling back to a default. -/
theorem missing_wavelength_raises_counterexample :
    parsePlateReaderXml wSpecPlateNoEmStart =
      .error "TypeError: float() argument must be a string or a real number, not NoneType" ∧
    (collectMetaAndMeasurements wSpecPlateNoEmStart).1.lookup "Emission start" = none := by
  exact ⟨by decide, by decide⟩

/-- C8 witness: a plate with neither "Read Time" nor "Well count" parses
successfully with no timestamp and the default 96-well plate type. -/
theorem missing_metadata_defaults_witness :
    ∃ md, parsePlateReaderXml wSpecPlate = .ok md ∧
      md.timestamp = none ∧ md.plate_type = .plate96 := by
  have hok : parsePlateReaderXml wSpecPlate =
      .ok { measurements :=
              ⟨["well_row", "well_column", "well_id", "value", "excitation_nm", "emission_nm"],
               [[.str "A", .num (mkRat 1 1), .str "A01", .num (mkRat 1 2),
                 .num (mkRat 450 1), .num (mkRat 525 1)]]⟩,
            name := "P1", timestamp := none, plate_type := .plate96,
            metadata := [("Plate name", "P1"), ("Measurement type", "SpectrumScan"),
                         ("Excitation sweep", "True"), ("Emission start", "525"),
                         ("Well data", "")] } := by decide
  exact ⟨_, hok, (missing_metadata_defaults wSpecPlate _ hok).1 (by decide),
         (missing_metadata_defaults wSpecPlate _ hok).2 (by decide)⟩

lemma plateStartIdxs_lt (doc : List Row) (p : Nat) (hp : p ∈ plateStartIdxs doc) :
    p < doc.length :=
  List.mem_range.mp (List.mem_filter.mp hp).1

lemma plateStartIdxs_pairwise (doc : List Row) :
    List.Pairwise (· < ·) (plateStartIdxs doc) :=
  (List.pairwise_lt_range doc.length).filter _

lemma plateStartIdxs_getD_mem (doc : List Row) (i : Nat)
    (hi : i < (plateStartIdxs doc).length) :
    (plateStartIdxs doc).getD i 0 ∈ plateStartIdxs doc := by
  rw [List.getD_eq_getElem _ _ hi]
  exact List.getElem_mem hi

lemma plateStartIdxs_strict (doc : List Row) (i j : Nat) (hij : i < j)
    (hj : j < (plateStartIdxs doc).length) :
    (plateStartIdxs doc).getD i 0 < (plateStartIdxs doc).getD j 0 := by
  have h := List.pairwise_iff_get.mp (plateStartIdxs_pairwise doc)
    ⟨i, by omega⟩ ⟨j, hj⟩ (Fin.mk_lt_mk.mpr hij)
  rw [List.getD_eq_getElem _ _ (by omega : i < (plateStartIdxs doc).length),
    List.getD_eq_getElem _ _ hj]
  exact h

lemma extractLoop_spec (len e : Nat) : ∀ (fuel c : Nat), c ≤ e → e < len → e - c ≤ fuel →
    extractLoop len e fuel (some c) = (List.range' (c + 1) (e - c - 1), some e) := by
  intro fuel
  induction fuel with
  | zero =>
    intro c hce _ hfuel
    have hc : c = e := by omega
    subst hc
    simp [extractLoop]
  | succ fuel ih =>
    intro c hce hel hfuel
    by_cases hc : c = e
    · subst hc
      simp [extractLoop]
    · have hlt : c < e := by omega
      have hnext : findNextRow len c = some (c + 1) := by
        unfold findNextRow
        rw [if_pos (by omega)]
      rw [show extractLoop len e (fuel + 1) (some c)
          = (if c = e then ([], some c) else
             match findNextRow len c with
             | none => ([], none)
             | some c2 =>
               let (rest, fin) := extractLoop len e fuel (some c2)
               (if c2 = e then rest else c2 :: rest, fin)) from rfl]
      rw [if_neg hc, hnext]
      have hrec := ih (c + 1) (by omega) hel (by omega)
      by_cases hc2 : c + 1 = e
      · have h0 : e - c - 1 = 0 := by omega
        rw [hc2] at hrec
        simp only [Nat.sub_self, Nat.zero_sub, List.range'_zero] at hrec
        simp [hrec, h0, hc2]
      · have h1 : e - c - 1 = (e - (c + 1) - 1) + 1 := by omega
        simp [hrec, hc2, h1, List.range'_succ]

lemma extract_spec (doc : List Row) (s e : Nat) (rl : Bool) (hse : s < e)
    (hlen : e < doc.length) :
    extractPlateReaderXml doc (some s) e rl =
      (List.range' s (e - s)).map some ++ (if rl then [some e] else []) := by
  simp only [extractPlateReaderXml]
  rw [extractLoop_spec doc.length e doc.length s (by omega) hlen (by omega)]
  have hr : (List.range' s (e - s)).map some
      = some s :: (List.range' (s + 1) (e - s - 1)).map some := by
    rw [show e - s = (e - s - 1) + 1 by omega, List.range'_succ]
    rfl
  cases rl with
  | false => simp [hr]
  | true => simp [hr]

lemma getD_map_range {α : Type} (k : Nat) (f : Nat → α) (d : α) (i : Nat) (hi : i < k) :
    ((List.range k).map f).getD i d = f i := by
  rw [List.getD_eq_getElem _ _ (by simpa using hi)]
  simp

lemma getLists_length (doc : List Row) :
    (getListsOfPlateReaderXml doc).length = (plateStartIdxs doc).length := by
  simp [getListsOfPlateReaderXml]

lemma getLists_getD (doc : List Row) (hp : ∀ p ∈ plateStartIdxs doc, 1 ≤ p)
    (i : Nat) (hi : i < (plateStartIdxs doc).length) :
    (getListsOfPlateReaderXml doc).getD i [] =
      if i < (plateStartIdxs doc).length - 1 then
        (List.range' ((plateStartIdxs doc).getD i 0 - 1)
          ((plateStartIdxs doc).getD (i + 1) 0 - (plateStartIdxs doc).getD i 0)).map some
      else
        (List.range' ((plateStartIdxs doc).getD i 0 - 1)
          (doc.length - (plateStartIdxs doc).getD i 0 + 1)).map some := by
  have hp1 : 1 ≤ (plateStartIdxs doc).getD i 0 := hp _ (plateStartIdxs_getD_mem doc i hi)
  have hplen : (plateStartIdxs doc).getD i 0 < doc.length :=
    plateStartIdxs_lt doc _ (plateStartIdxs_getD_mem doc i hi)
  have hstep : (getListsOfPlateReaderXml doc).getD i [] =
      (let p := (plateStartIdxs doc).getD i 0
       let header : Option Nat := if p = 0 then none else some (p - 1)
       if i < (plateStartIdxs doc).length - 1 then
         extractPlateReaderXml doc header ((plateStartIdxs doc).getD (i + 1) 0 - 1) false
       else
         extractPlateReaderXml doc header (doc.length - 1) true) := by
    exact getD_map_range _ _ _ i hi
  rw [hstep]
  simp only []
  rw [if_neg (by omega : ¬ (plateStartIdxs doc).getD i 0 = 0)]
  by_cases hlast : i < (plateStartIdxs doc).length - 1
  · rw [if_pos hlast, if_pos hlast]
    have hp2 : (plateStartIdxs doc).getD i 0 < (plateStartIdxs doc).getD (i + 1) 0 :=
      plateStartIdxs_strict doc i (i + 1) (by omega) (by omega)
    have hp2len : (plateStartIdxs doc).getD (i + 1) 0 < doc.length :=
      plateStartIdxs_lt doc _ (plateStartIdxs_getD_mem doc (i + 1) (by omega))
    rw [extract_spec doc _ _ false (by omega) (by omega)]
    rw [show (plateStartIdxs doc).getD (i + 1) 0 - 1 - ((plateStartIdxs doc).getD i 0 - 1)
        = (plateStartIdxs doc).getD (i + 1) 0 - (plateStartIdxs doc).getD i 0 by omega]
    simp
  · rw [if_neg hlast, if_neg hlast]
    have hlen2 : 2 ≤ doc.length := by omega
    rw [extract_spec doc _ _ true (by omega) (by omega)]
    rw [show doc.length - (plateStartIdxs doc).getD i 0 + 1
        = (doc.length - (plateStartIdxs doc).getD i 0) + 1 from rfl, List.range'_concat]
    rw [show (plateStartIdxs doc).getD i 0 - 1 + 1 * (doc.length - (plateStartIdxs doc).getD i 0)
        = doc.length - 1 by omega]
    rw [show doc.length - 1 - ((plateStartIdxs doc).getD i 0 - 1)
        = doc.length - (plateStartIdxs doc).getD i 0 by omega]
    simp

lemma mono_le_of_step (a : Nat → Nat) : ∀ k : Nat, (∀ i, i < k → a i ≤ a (i + 1)) →
    a 0 ≤ a k := by
  intro k
  induction k with
  | zero => intro _; exact Nat.le_refl _
  | succ k ih =>
    intro h
    exact Nat.le_trans (ih (fun i hi => h i (by omega))) (h k (by omega))

lemma join_ranges (a : Nat → Nat) : ∀ k : Nat, (∀ i, i < k → a i ≤ a (i + 1)) →
    ((List.range k).map (fun i => List.range' (a i) (a (i + 1) - a i))).flatten
      = List.range' (a 0) (a k - a 0) := by
  intro k
  induction k with
  | zero => intro _; simp
  | succ k ih =>
    intro hmono
    have hmono2 : ∀ i, i < k → a i ≤ a (i + 1) := fun i hi => hmono i (by omega)
    have h0k : a 0 ≤ a k := mono_le_of_step a k hmono2
    rw [List.range_succ, List.map_append, List.flatten_append, ih hmono2]
    simp only [List.map_cons, List.map_nil, List.flatten_cons, List.flatten_nil,
      List.append_nil]
    have hrw : a k = a 0 + 1 * (a k - a 0) := by omega
    rw [show List.range' (a k) (a (k + 1) - a k)
        = List.range' (a 0 + 1 * (a k - a 0)) (a (k + 1) - a k) by rw [← hrw]]
    rw [List.range'_append]
    congr 1
    have := hmono k (by omega)
    omega

lemma getLists_eq_ranges (doc : List Row) (hp : ∀ p ∈ plateStartIdxs doc, 1 ≤ p) :
    getListsOfPlateReaderXml doc
      = (List.range (plateStartIdxs doc).length).map
          (fun i => (List.range' (secBound doc i) (secBound doc (i + 1) - secBound doc i)).map
            some) := by
  apply List.ext_getElem
  · simp [getLists_length]
  · intro i h1 h2
    have hi : i < (plateStartIdxs doc).length := by
      simpa [getLists_length] using h1
    rw [← List.getD_eq_getElem _ ([] : List (Option Nat)) h1,
      ← List.getD_eq_getElem _ ([] : List (Option Nat)) h2]
    rw [getLists_getD doc hp i hi, getD_map_range _ _ _ i hi]
    have hpi : 1 ≤ (plateStartIdxs doc).getD i 0 := hp _ (plateStartIdxs_getD_mem doc i hi)
    by_cases hlast : i < (plateStartIdxs doc).length - 1
    · rw [if_pos hlast]
      unfold secBound
      rw [if_pos hi, if_pos (by omega : i + 1 < (plateStartIdxs doc).length)]
      have hpi2 : 1 ≤ (plateStartIdxs doc).getD (i + 1) 0 :=
        hp _ (plateStartIdxs_getD_mem doc (i + 1) (by omega))
      rw [show (plateStartIdxs doc).getD (i + 1) 0 - 1 - ((plateStartIdxs doc).getD i 0 - 1)
          = (plateStartIdxs doc).getD (i + 1) 0 - (plateStartIdxs doc).getD i 0 by omega]
    · rw [if_neg hlast]
      unfold secBound
      have hplen : (plateStartIdxs doc).getD i 0 < doc.length :=
        plateStartIdxs_lt doc _ (plateStartIdxs_getD_mem doc i hi)
      rw [if_pos hi, if_neg (by omega : ¬ i + 1 < (plateStartIdxs doc).length)]
      rw [show doc.length - ((plateStartIdxs doc).getD i 0 - 1)
          = doc.length - (plateStartIdxs doc).getD i 0 + 1 by omega]

lemma getLists_flatten (doc : List Row) (hp : ∀ p ∈ plateStartIdxs doc, 1 ≤ p)
    (hne : plateStartIdxs doc ≠ []) :
    (getListsOfPlateReaderXml doc).flatten =
      (List.range' ((plateStartIdxs doc).getD 0 0 - 1)
        (doc.length - ((plateStartIdxs doc).getD 0 0 - 1))).map some ∧
    (getListsOfPlateReaderXml doc).flatten.Nodup := by
  have hk : 0 < (plateStartIdxs doc).length := List.length_pos.mpr hne
  have hmono : ∀ i, i < (plateStartIdxs doc).length →
      secBound doc i ≤ secBound doc (i + 1) := by
    intro i hi
    unfold secBound
    rw [if_pos hi]
    by_cases h2 : i + 1 < (plateStartIdxs doc).length
    · rw [if_pos h2]
      have := plateStartIdxs_strict doc i (i + 1) (by omega) h2
      omega
    · rw [if_neg h2]
      have := plateStartIdxs_lt doc _ (plateStartIdxs_getD_mem doc i hi)
      omega
  have hflat : (getListsOfPlateReaderXml doc).flatten =
      (((List.range (plateStartIdxs doc).length).map
        (fun i => List.range' (secBound doc i) (secBound doc (i + 1) - secBound doc i))).flatten).map
        some := by
    rw [getLists_eq_ranges doc hp, List.map_flatten, List.map_map]
    rfl
  have hjr := join_ranges (secBound doc) (plateStartIdxs doc).length hmono
  have hb0 : secBound doc 0 = (plateStartIdxs doc).getD 0 0 - 1 := by
    unfold secBound
    rw [if_pos hk]
  have hbk : secBound doc (plateStartIdxs doc).length = doc.length := by
    unfold secBound
    rw [if_neg (by omega)]
  constructor
  · rw [hflat, hjr, hb0, hbk]
  · rw [hflat, hjr]
    exact (List.nodup_range' _ _).map (Option.some_injective _)

/-- C1 (amended): a row is a plate start exactly when its first cell is
truthy (has a `Data` child) and the first label in the row equals, case
sensitively, "Plate name".  When every plate-start row has a preceding row,
a document with k plate-start rows segments into exactly k sections in
document order: section i starts at the row immediately preceding its
plate-start row; every section but the last ends just before the next
section's header row, and the last extends to the document's final row;
together the sections cover, without gaps or overlaps, the row stream from
the first plate's header row onward (rows before it belong to no section). -/
theorem plate_segmentation_sections (doc : List Row)
    (hp : ∀ p ∈ plateStartIdxs doc, 1 ≤ p) :
    (∀ r : Row, isPlateStart r = true ↔
        (rowFindCellTruthy r = true ∧ rowFirstDataText r = some "Plate name")) ∧
    (getListsOfPlateReaderXml doc).length = (plateStartIdxs doc).length ∧
    (∀ i, i < (plateStartIdxs doc).length →
      (getListsOfPlateReaderXml doc).getD i [] =
        if i < (plateStartIdxs doc).length - 1 then
          (List.range' ((plateStartIdxs doc).getD i 0 - 1)
            ((plateStartIdxs doc).getD (i + 1) 0 - (plateStartIdxs doc).getD i 0)).map some
        else
          (List.range' ((plateStartIdxs doc).getD i 0 - 1)
            (doc.length - (plateStartIdxs doc).getD i 0 + 1)).map some) ∧
    (plateStartIdxs doc ≠ [] →
      (getListsOfPlateReaderXml doc).flatten =
        (List.range' ((plateStartIdxs doc).getD 0 0 - 1)
          (doc.length - ((plateStartIdxs doc).getD 0 0 - 1))).map some ∧
      (getListsOfPlateReaderXml doc).flatten.Nodup) := by
  refine ⟨?_, getLists_length doc, getLists_getD doc hp, getLists_flatten doc hp⟩
  intro r
  simp [isPlateStart]

/-- C1 counterexample: (i) a row that contains a cell and a "Plate name"
label is not detected as a plate start when its first label differs (the
code checks only the first `ss:Data`); (ii) in a document with a junk row
before the first plate's header row, the sections do not cover the entire
row stream — position 0 belongs to no section. -/
theorem plate_segmentation_counterexample :
    ((⟨[⟨none, some "X"⟩, ⟨none, some "Plate name"⟩]⟩ : Row).cells.length = 2 ∧
     ((⟨[⟨none, some "X"⟩, ⟨none, some "Plate name"⟩]⟩ : Row).cells.any
        (fun c => c.data == some "Plate name")) = true ∧
     isPlateStart ⟨[⟨none, some "X"⟩, ⟨none, some "Plate name"⟩]⟩ = false) ∧
    (plateStartIdxs wDocJunkFirst = [2] ∧
     wDocJunkFirst.length = 3 ∧
     getListsOfPlateReaderXml wDocJunkFirst = [[some 1, some 2]] ∧
     some 0 ∉ (getListsOfPlateReaderXml wDocJunkFirst).flatten) := by
  exact ⟨⟨by decide, by decide, by decide⟩, by decide, by decide, by decide, by decide⟩

/-- C1 witness: the two-plate document segments into sections `[0,1,2]` and
`[3,4,5]`, covering positions 0–5 without duplicates. -/
theorem plate_segmentation_sections_witness :
    (getListsOfPlateReaderXml wDocTwoPlates).length = 2 ∧
    (getListsOfPlateReaderXml wDocTwoPlates).getD 0 [] = (List.range' 0 3).map some ∧
    (getListsOfPlateReaderXml wDocTwoPlates).flatten = (List.range' 0 6).map some ∧
    (getListsOfPlateReaderXml wDocTwoPlates).flatten.Nodup := by
  have h := plate_segmentation_sections wDocTwoPlates (by decide)
  refine ⟨h.2.1.trans (by decide), ?_, ?_, (h.2.2.2 (by decide)).2⟩
  · have h2 := h.2.2.1 0 (by decide)
    rw [if_pos (by decide)] at h2
    exact h2.trans (by decide)
  · have h3 := (h.2.2.2 (by decide)).1
    exact h3.trans (by decide)

lemma maskFilter_sublist {α : Type} (k : List Bool) : ∀ xs : List α,
    (maskFilter k xs).Sublist xs := by
  induction k with
  | nil => intro xs; cases xs <;> simp [maskFilter]
  | cons b bs ih =>
    intro xs
    cases xs with
    | nil => simp [maskFilter]
    | cons x rest =>
      cases b with
      | true => simpa [maskFilter] using (ih rest).cons₂ x
      | false => simpa [maskFilter] using (ih rest).cons x

lemma maskIdxs_cons (b : Bool) (bs : List Bool) :
    maskIdxs (b :: bs) = (if b then [0] else []) ++ (maskIdxs bs).map Nat.succ := by
  unfold maskIdxs
  rw [List.length_cons, List.range_succ_eq_map, List.filter_cons, List.filter_map]
  have hc : ((fun j => (b :: bs).getD j false) ∘ Nat.succ) = (fun j => bs.getD j false) := by
    funext j
    simp [Function.comp]
  rw [hc]
  cases b with
  | true => simp
  | false => simp

lemma maskFilter_eq_filterMap {α : Type} (k : List Bool) : ∀ xs : List α,
    maskFilter k xs = (maskIdxs k).filterMap (fun j => xs[j]?) := by
  induction k with
  | nil => intro xs; cases xs <;> simp [maskFilter, maskIdxs]
  | cons b bs ih =>
    intro xs
    rw [maskIdxs_cons]
    cases xs with
    | nil =>
      have h1 : maskFilter (b :: bs) ([] : List α) = [] := by cases b <;> rfl
      rw [h1]
      simp
    | cons x rest =>
      rw [List.filterMap_append, List.filterMap_map]
      have h2 : List.filterMap ((fun j => (x :: rest)[j]?) ∘ Nat.succ) (maskIdxs bs)
          = List.filterMap (fun j => rest[j]?) (maskIdxs bs) := by
        have hfun : ((fun j => (x :: rest)[j]?) ∘ Nat.succ) = (fun j : Nat => rest[j]?) := by
          funext j
          show (x :: rest)[Nat.succ j]? = rest[j]?
          simp
        rw [hfun]
      cases b with
      | true =>
        rw [if_pos rfl]
        have h3 : List.filterMap (fun j => (x :: rest)[j]?) ([0] : List Nat) = [x] := by simp
        rw [h3, h2, ← ih rest]
        rfl
      | false =>
        rw [if_neg (by simp)]
        have h3 : List.filterMap (fun j => (x :: rest)[j]?) ([] : List Nat) = [] := rfl
        rw [h3, h2, ← ih rest]
        rfl

lemma mem_maskIdxs (k : List Bool) (j : Nat) :
    j ∈ maskIdxs k ↔ j < k.length ∧ k.getD j false = true := by
  unfold maskIdxs
  rw [List.mem_filter, List.mem_range]

lemma maskIdxs_lt (k : List Bool) (j : Nat) (hj : j ∈ maskIdxs k) : j < k.length :=
  ((mem_maskIdxs k j).mp hj).1

lemma filterMap_getElem_eq_map {α : Type} (xs : List α) (d : α) :
    ∀ l : List Nat, (∀ j ∈ l, j < xs.length) →
      l.filterMap (fun j => xs[j]?) = l.map (fun j => xs.getD j d) := by
  intro l
  induction l with
  | nil => intro _; rfl
  | cons j t ih =>
    intro h
    have hj : j < xs.length := h j (by simp)
    rw [List.filterMap_cons, List.map_cons, List.getElem?_eq_getElem hj,
      ih (fun x hx => h x (by simp [hx])), List.getD_eq_getElem _ _ hj]

lemma maskFilter_eq_map {α : Type} (k : List Bool) (xs : List α) (d : α)
    (hlen : xs.length = k.length) :
    maskFilter k xs = (maskIdxs k).map (fun j => xs.getD j d) := by
  rw [maskFilter_eq_filterMap]
  exact filterMap_getElem_eq_map xs d (maskIdxs k)
    (fun j hj => by rw [hlen]; exact maskIdxs_lt k j hj)

lemma maskFilter_zip {α β : Type} (k : List Bool) : ∀ (xs : List α) (ys : List β),
    xs.length = ys.length →
    maskFilter k (xs.zip ys) = (maskFilter k xs).zip (maskFilter k ys) := by
  induction k with
  | nil => intro xs ys _; rfl
  | cons b bs ih =>
    intro xs ys hlen
    cases xs with
    | nil =>
      cases ys with
      | nil => rfl
      | cons y yr => simp at hlen
    | cons x xr =>
      cases ys with
      | nil => simp at hlen
      | cons y yr =>
        have hlen2 : xr.length = yr.length := by simpa using hlen
        cases b with
        | true =>
          show (x, y) :: maskFilter bs (xr.zip yr)
              = (x, y) :: (maskFilter bs xr).zip (maskFilter bs yr)
          rw [ih xr yr hlen2]
        | false =>
          show maskFilter bs (xr.zip yr) = (maskFilter bs xr).zip (maskFilter bs yr)
          exact ih xr yr hlen2

lemma lookup_eq_some_of_mem {β : Type} : ∀ (l : List (String × β)) (a : String) (b : β),
    (l.map Prod.fst).Nodup → (a, b) ∈ l → l.lookup a = some b := by
  intro l
  induction l with
  | nil => intro a b _ hm; simp at hm
  | cons p rest ih =>
    intro a b hnd hm
    obtain ⟨a0, b0⟩ := p
    have hnd2 : a0 ∉ rest.map Prod.fst ∧ (rest.map Prod.fst).Nodup := by
      simpa using hnd
    rcases List.mem_cons.mp hm with h1 | h2
    · have ha : a = a0 := congrArg Prod.fst h1
      have hb : b = b0 := congrArg Prod.snd h1
      subst ha
      subst hb
      simp [List.lookup_cons]
    · have hkey : a ∈ rest.map Prod.fst := List.mem_map.mpr ⟨(a, b), h2, rfl⟩
      have hne : (a == a0) = false := by
        refine beq_eq_false_iff_ne.mpr ?_
        intro he
        exact hnd2.1 (he ▸ hkey)
      rw [List.lookup_cons, hne]
      exact ih a b hnd2.2 h2

lemma mem_of_lookup_eq_some {β : Type} : ∀ (l : List (String × β)) (a : String) (b : β),
    l.lookup a = some b → (a, b) ∈ l := by
  intro l
  induction l with
  | nil => intro a b h; simp [List.lookup] at h
  | cons p rest ih =>
    intro a b h
    obtain ⟨a0, b0⟩ := p
    rw [List.lookup_cons] at h
    cases hab : (a == a0) with
    | true =>
      rw [hab] at h
      have hb := Option.some.inj h
      exact List.mem_cons.mpr (Or.inl (by rw [eq_of_beq hab, ← hb]))
    | false =>
      rw [hab] at h
      exact List.mem_cons.mpr (Or.inr (ih a b h))

lemma maskFilter_all_true {α : Type} : ∀ (k : List Bool),
    (∀ i, i < k.length → k.getD i false = true) →
    ∀ xs : List α, xs.length = k.length → maskFilter k xs = xs := by
  intro k
  induction k with
  | nil =>
    intro _ xs hlen
    rw [List.length_nil, List.length_eq_zero] at hlen
    subst hlen
    rfl
  | cons b bs ih =>
    intro h xs hlen
    have hb : b = true := by simpa using h 0 (by simp)
    subst hb
    cases xs with
    | nil => simp at hlen
    | cons x xr =>
      have hstep : maskFilter (true :: bs) (x :: xr) = x :: maskFilter bs xr := by
        simp [maskFilter]
      rw [hstep, ih (fun i hi => by simpa using h (i + 1) (by simpa using hi)) xr
        (by simpa using hlen)]

/-- C9 (amended): on a well-formed table with distinct column names, a
`value` column, and at least one record with a non-missing value, the
post-processing step is idempotent: applying it twice yields the same table
as applying it once.  (When every record's value is missing, one
application already empties the table of all its columns and a second
application raises `KeyError` — see the counterexample.) -/
theorem postProcess_idempotent (t : Table) (hWF : t.WF) (hnd : t.cols.Nodup)
    (hval : "value" ∈ t.cols)
    (hsome : ∃ r ∈ t.rows, (rowAtCol t.cols r "value").getD Datum.na ≠ Datum.na) :
    ∃ t2, postProcess t = .ok t2 ∧ postProcess t2 = .ok t2 := by
  classical
  set pred := fun r => (rowAtCol t.cols r "value").getD Datum.na != Datum.na with hpred
  set rows1 := t.rows.filter pred with hrows1
  set t1 : Table := ⟨t.cols, rows1⟩ with ht1
  set k := keepMask t1 with hk
  set t2 := dropnaAllNaCols t1 with ht2
  have hdrop1 : dropnaValueRows t = .ok t1 := by
    unfold dropnaValueRows
    rw [if_pos hval]
  have hstep1 : postProcess t = .ok t2 := by
    unfold postProcess
    rw [hdrop1]
    rfl
  -- basic facts about the filtered rows
  have hWF1 : ∀ r ∈ rows1, r.length = t.cols.length := fun r hr =>
    hWF r (List.mem_filter.mp hr).1
  have hpred1 : ∀ r ∈ rows1, (rowAtCol t.cols r "value").getD Datum.na ≠ Datum.na :=
    fun r hr => by simpa [hpred] using (List.mem_filter.mp hr).2
  obtain ⟨r0, hr0t, hr0v⟩ := hsome
  have hr0 : r0 ∈ rows1 := List.mem_filter.mpr ⟨hr0t, by simpa [hpred] using hr0v⟩
  have hr0len : r0.length = t.cols.length := hWF1 r0 hr0
  -- the position of the value column
  cases hlk : rowAtCol t.cols r0 "value" with
  | none => rw [hlk] at hr0v; simp at hr0v
  | some d0 =>
  have hd0 : d0 ≠ Datum.na := by rw [hlk] at hr0v; simpa using hr0v
  have hm : ("value", d0) ∈ t.cols.zip r0 := mem_of_lookup_eq_some _ _ _ hlk
  obtain ⟨j, hjlen, hjeq⟩ := List.mem_iff_getElem.mp hm
  have hjc : j < t.cols.length := by
    rw [List.length_zip] at hjlen
    omega
  have hjr : j < r0.length := by
    rw [List.length_zip] at hjlen
    omega
  rw [List.getElem_zip] at hjeq
  have hcj : t.cols[j] = "value" := by
    have := congrArg Prod.fst hjeq
    simpa using this
  have hrj : r0[j] = d0 := by
    have := congrArg Prod.snd hjeq
    simpa using this
  have hklen : k.length = t.cols.length := by
    simp [hk, keepMask, ht1]
  -- the value column is kept by the first column drop
  have hkj : k.getD j false = true := by
    rw [hk]
    show (keepMask t1).getD j false = true
    unfold keepMask
    rw [getD_map_range _ _ _ j (by rw [ht1]; exact hjc)]
    refine List.any_eq_true.mpr ⟨r0, hr0, ?_⟩
    rw [List.getD_eq_getElem _ _ hjr, hrj]
    simpa using hd0
  have hjm : j ∈ maskIdxs k := (mem_maskIdxs _ _).mpr ⟨by omega, hkj⟩
  have ht2cols : t2.cols = maskFilter k t.cols := rfl
  have ht2rows : t2.rows = rows1.map (maskFilter k) := rfl
  have hcolsmap : maskFilter k t.cols = (maskIdxs k).map (fun i => t.cols.getD i "") :=
    maskFilter_eq_map k t.cols "" hklen.symm
  have ht2collen : t2.cols.length = (maskIdxs k).length := by
    rw [ht2cols, hcolsmap, List.length_map]
  have hval2 : "value" ∈ t2.cols := by
    rw [ht2cols, hcolsmap]
    refine List.mem_map.mpr ⟨j, hjm, ?_⟩
    rw [List.getD_eq_getElem _ _ hjc, hcj]
  -- the masked zip of any filtered row
  have hzipkeys : ∀ r1 : List Datum, r1.length = t.cols.length →
      ((maskFilter k (t.cols.zip r1)).map Prod.fst).Nodup := by
    intro r1 hlen1
    have hsub := (maskFilter_sublist k (t.cols.zip r1)).map Prod.fst
    rw [List.map_fst_zip _ _ (by omega)] at hsub
    exact hsub.nodup hnd
  have hpairmem : ∀ r1 : List Datum, r1.length = t.cols.length →
      ("value", r1.getD j Datum.na) ∈ maskFilter k (t.cols.zip r1) := by
    intro r1 hlen1
    rw [maskFilter_eq_filterMap]
    refine List.mem_filterMap.mpr ⟨j, hjm, ?_⟩
    have hjz : j < (t.cols.zip r1).length := by
      rw [List.length_zip]
      omega
    rw [List.getElem?_eq_getElem hjz, List.getElem_zip, hcj,
      List.getD_eq_getElem _ _ (by omega : j < r1.length)]
  have hlookup_full : ∀ r1 : List Datum, r1.length = t.cols.length →
      (t.cols.zip r1).lookup "value" = some (r1.getD j Datum.na) := by
    intro r1 hlen1
    refine lookup_eq_some_of_mem _ _ _ ?_ ?_
    · rw [List.map_fst_zip _ _ (by omega)]
      exact hnd
    · have hjz : j < (t.cols.zip r1).length := by
        rw [List.length_zip]
        omega
      refine List.mem_iff_getElem.mpr ⟨j, hjz, ?_⟩
      rw [List.getElem_zip, hcj, List.getD_eq_getElem _ _ (by omega : j < r1.length)]
  have hlookup_masked : ∀ r1 : List Datum, r1.length = t.cols.length →
      rowAtCol t2.cols (maskFilter k r1) "value" = some (r1.getD j Datum.na) := by
    intro r1 hlen1
    unfold rowAtCol
    rw [ht2cols, ← maskFilter_zip k t.cols r1 hlen1.symm]
    exact lookup_eq_some_of_mem _ _ _ (hzipkeys r1 hlen1) (hpairmem r1 hlen1)
  have hrowval : ∀ r1 ∈ rows1, r1.getD j Datum.na ≠ Datum.na := by
    intro r1 hr1
    have h1 := hpred1 r1 hr1
    unfold rowAtCol at h1
    rw [hlookup_full r1 (hWF1 r1 hr1)] at h1
    simpa using h1
  -- the second row drop keeps every row
  have hdrop2 : dropnaValueRows t2 = .ok ⟨t2.cols, t2.rows⟩ := by
    unfold dropnaValueRows
    rw [if_pos hval2]
    have hfil : t2.rows.filter
        (fun r => (rowAtCol t2.cols r "value").getD Datum.na != Datum.na) = t2.rows := by
      refine List.filter_eq_self.mpr ?_
      intro r2 hr2
      rw [ht2rows] at hr2
      obtain ⟨r1, hr1, hr1eq⟩ := List.mem_map.mp hr2
      rw [← hr1eq, hlookup_masked r1 (hWF1 r1 hr1)]
      simpa using hrowval r1 hr1
    rw [hfil]
  -- every kept column still has a non-missing entry
  have hrow2len : ∀ r2 ∈ t2.rows, r2.length = (maskIdxs k).length := by
    intro r2 hr2
    rw [ht2rows] at hr2
    obtain ⟨r1, hr1, hr1eq⟩ := List.mem_map.mp hr2
    rw [← hr1eq, maskFilter_eq_map k r1 Datum.na ((hWF1 r1 hr1).trans hklen.symm),
      List.length_map]
  have hall2 : ∀ i, i < (keepMask t2).length → (keepMask t2).getD i false = true := by
    intro i hi
    have hilen : i < t2.cols.length := by
      simpa [keepMask] using hi
    have him : i < (maskIdxs k).length := by omega
    unfold keepMask
    rw [getD_map_range _ _ _ i hilen]
    set j2 := (maskIdxs k).getD i 0 with hj2
    have hj2m : j2 ∈ maskIdxs k := by
      rw [hj2, List.getD_eq_getElem _ _ him]
      exact List.getElem_mem him
    have hj2k : j2 < k.length := maskIdxs_lt k j2 hj2m
    have hj2kt : k.getD j2 false = true := ((mem_maskIdxs k j2).mp hj2m).2
    have hany : rows1.any (fun r => r.getD j2 Datum.na != Datum.na) = true := by
      have := hj2kt
      rw [hk] at this
      unfold keepMask at this
      rwa [getD_map_range _ _ _ j2 (by rw [ht1]; exact hklen ▸ hj2k)] at this
    obtain ⟨rw1, hrw1, hrw1v⟩ := List.any_eq_true.mp hany
    refine List.any_eq_true.mpr ⟨maskFilter k rw1, ?_, ?_⟩
    · rw [ht2rows]
      exact List.mem_map.mpr ⟨rw1, hrw1, rfl⟩
    · have hmapeq : maskFilter k rw1 = (maskIdxs k).map (fun idx => rw1.getD idx Datum.na) :=
        maskFilter_eq_map k rw1 Datum.na ((hWF1 rw1 hrw1).trans hklen.symm)
      rw [hmapeq, List.getD_eq_getElem _ _ (by rw [List.length_map]; exact him),
        List.getElem_map]
      have : (maskIdxs k)[i] = j2 := by
        rw [hj2, List.getD_eq_getElem _ _ him]
      rw [this]
      exact hrw1v
  -- the second column drop keeps every column
  have hdropcols2 : dropnaAllNaCols ⟨t2.cols, t2.rows⟩ = t2 := by
    have hkm2len : (keepMask t2).length = t2.cols.length := by
      simp [keepMask]
    have hcols2 : maskFilter (keepMask t2) t2.cols = t2.cols :=
      maskFilter_all_true (keepMask t2) hall2 t2.cols (by omega)
    have hrows2 : t2.rows.map (maskFilter (keepMask t2)) = t2.rows := by
      have hcongr : ∀ r2 ∈ t2.rows, maskFilter (keepMask t2) r2 = id r2 := by
        intro r2 hr2
        exact maskFilter_all_true (keepMask t2) hall2 r2
          (by rw [hrow2len r2 hr2, ← ht2collen]; omega)
      rw [List.map_congr_left hcongr, List.map_id]
    unfold dropnaAllNaCols
    show (⟨maskFilter (keepMask ⟨t2.cols, t2.rows⟩) t2.cols,
          t2.rows.map (maskFilter (keepMask ⟨t2.cols, t2.rows⟩))⟩ : Table) = t2
    have heta : (⟨t2.cols, t2.rows⟩ : Table) = t2 := rfl
    rw [heta, hcols2, hrows2]
  refine ⟨t2, hstep1, ?_⟩
  unfold postProcess
  rw [hdrop2]
  show Except.ok (dropnaAllNaCols ⟨t2.cols, t2.rows⟩) = Except.ok t2
  rw [hdropcols2]

/-- C9 counterexample: on a table whose only record has a missing value,
one application of post-processing drops the row and then every column
(yielding the empty, column-less table), and a second application raises
`KeyError` because the `value` subset column no longer exists — so applying
twice does not yield the same table as applying once. -/
theorem postProcess_idempotent_counterexample :
    postProcess ⟨["well_id", "value"], [[Datum.str "A01", Datum.na]]⟩ = .ok ⟨[], []⟩ ∧
    (postProcess ⟨["well_id", "value"], [[Datum.str "A01", Datum.na]]⟩).bind postProcess
      = .error "KeyError: value" ∧
    (postProcess ⟨["well_id", "value"], [[Datum.str "A01", Datum.na]]⟩).bind postProcess
      ≠ postProcess ⟨["well_id", "value"], [[Datum.str "A01", Datum.na]]⟩ := by
  exact ⟨by decide, by decide, by decide⟩

/-- C9 witness: the amended statement at a two-record table with one
non-missing value. -/
theorem postProcess_idempotent_witness :
    ∃ t2, postProcess ⟨["well_id", "value"],
        [[Datum.str "A01", Datum.num (mkRat 1 1)], [Datum.str "A02", Datum.na]]⟩ = .ok t2 ∧
      postProcess t2 = .ok t2 :=
  postProcess_idempotent _ (by decide) (by decide) (by decide)
    ⟨[Datum.str "A01", Datum.num (mkRat 1 1)], by decide, by decide⟩
